import Mathlib

/-!
Shallow embedding of the classics-prediction engine
(`src/procyclingstats/classics_predictor.py`) together with the backtest
scorer and the grid-search weight optimizer from
`src/tests/test_backtest_2025.py`, and proofs about the embedded code.

Conventions of the embedding:
* Python floats are modelled as exact rationals (`ℚ`); the transcendental
  kernels `math.exp` and `math.log1p` (library code outside the repository)
  are abstracted as a `MathKernel` parameter.
* A result record's `date` field holds the result of `_parse_date`:
  `none` models a missing (`KeyError`) or unparseable
  (`ValueError`/`IndexError`) date string, `some d` a parsed `datetime.date`.
* Python date ordering and subtraction are modelled through the day number
  `PDate.toDays` (proleptic Gregorian day count), which agrees with
  Python's lexicographic `date` comparison on valid dates.
* A Python `rank` value is `PRank`: an `int`, a `str`, or `None`
  (any other type behaves like `None` in every branch the code takes).
-/

/-- Day-of-year table: days in the months before month `m` of a non-leap
year (month numbers clamped like Python's `date` would never produce are
irrelevant to the embedding; fields come from parsed valid dates). -/
def cumMonthDays : Nat → Nat
  | 1 => 0
  | 2 => 31
  | 3 => 59
  | 4 => 90
  | 5 => 120
  | 6 => 151
  | 7 => 181
  | 8 => 212
  | 9 => 243
  | 10 => 273
  | 11 => 304
  | _ => 334

/-- Gregorian leap-year test. -/
def isLeapYear (y : Nat) : Bool :=
  y % 4 == 0 && (y % 100 != 0 || y % 400 == 0)

/-- Calendar date as produced by `_parse_date` (a Python `datetime.date`). -/
structure PDate where
  y : Nat
  m : Nat
  d : Nat
deriving DecidableEq

/-- Proleptic Gregorian day number of a date.  Differences of `toDays`
agree with Python's `(a - b).days`, and `toDays` is monotone in the
lexicographic order Python uses to compare `date` objects. -/
def PDate.toDays (t : PDate) : Int :=
  (365 * (t.y - 1) + (t.y - 1) / 4 - (t.y - 1) / 100 + (t.y - 1) / 400
    + cumMonthDays t.m + (if 3 ≤ t.m ∧ isLeapYear t.y then 1 else 0) + t.d : Nat)

/-- Python `(a - b).days` for two dates. -/
def daysBetween (a b : PDate) : Int :=
  a.toDays - b.toDays

/-- A Python `rank` field: an `int` (`rint`), a `str` (`rstr`), or `None`
(`rnone`), the three value kinds the scrapers produce. -/
inductive PRank where
  | rint (n : Int)
  | rstr (s : String)
  | rnone
deriving DecidableEq

/-- Python `s.isdigit()` together with `int(s)`: `some n` when the string
is nonempty and all characters are decimal digits, otherwise `none`. -/
def digitsVal (s : String) : Option Nat :=
  if s.data.isEmpty || !(s.data.all Char.isDigit) then none
  else some (s.data.foldl (fun a c => a * 10 + (c.toNat - 48)) 0)

/-- Python `needle in haystack` on strings (substring containment). -/
def strContains (haystack needle : String) : Bool :=
  haystack.data.tails.any (fun t => needle.data.isPrefixOf t)

/-- Points-per-speciality mapping of a rider profile.  The Python dict is
read only through `.get(key, 0)`, so it is modelled as a total record,
missing keys being `0`. -/
structure Specialties where
  one_day_races : ℚ := 0
  gc : ℚ := 0
  time_trial : ℚ := 0
  sprint : ℚ := 0
  climber : ℚ := 0
deriving DecidableEq

/-- Rider profile: `birthdate` is the parse result of the birthdate string
(`none` models a missing/empty/unparseable birthdate, which the code turns
into `age = None`). -/
structure Profile where
  birthdate : Option PDate := none
  points_per_speciality : Specialties := {}
deriving DecidableEq

/-- One result dict from `RiderResults`: the fields the predictor reads. -/
structure ResultRecord where
  date : Option PDate := none
  rank : PRank := .rnone
  stage_url : String := ""
  race_class : String := ""
deriving DecidableEq

/-- Pre-collected rider data (`rider_data[url]` value): profile, results
and optional team slug (`none` models a missing or empty team). -/
structure RiderData where
  profile : Profile := {}
  results : List ResultRecord := []
  team : Option String := none
deriving DecidableEq

/-- One startlist entry (`rider_url` / `rider_name` dict). -/
structure StartEntry where
  rider_url : String
  rider_name : String
deriving DecidableEq

/-- Classification of classic races (`ClassicType`). -/
inductive ClassicType where
  | monument
  | major_classic
  | semi_classic
deriving DecidableEq

/-- Terrain profile of classic races (`TerrainType`). -/
inductive TerrainType where
  | flat_punch
  | cobbles
  | cobbles_hills
  | hilly
  | mountainous
deriving DecidableEq

/-- Metadata of a known classic (one `CLASSICS_METADATA` value; the
display `name` string is omitted as no embedded code reads it). -/
structure RaceMeta where
  ctype : ClassicType
  terrain : TerrainType
  typical_distance : ℚ
  month : Nat
  sprint_finish_prob : ℚ
  climbing_difficulty : ℚ
  uphill_finish_prob : ℚ
  cobble_difficulty : ℚ
deriving DecidableEq

/-- The `CLASSICS_METADATA` table, in source order. -/
def CLASSICS_METADATA : List (String × RaceMeta) :=
  [("race/milano-sanremo",
    ⟨.monument, .flat_punch, 300, 3, 0.65, 0.2, 0.15, 0.0⟩),
   ("race/ronde-van-vlaanderen",
    ⟨.monument, .cobbles_hills, 260, 4, 0.1, 0.5, 0.3, 0.8⟩),
   ("race/paris-roubaix",
    ⟨.monument, .cobbles, 260, 4, 0.15, 0.05, 0.0, 1.0⟩),
   ("race/liege-bastogne-liege",
    ⟨.monument, .hilly, 260, 4, 0.05, 0.85, 0.5, 0.0⟩),
   ("race/il-lombardia",
    ⟨.monument, .hilly, 240, 10, 0.05, 0.8, 0.5, 0.0⟩),
   ("race/strade-bianche",
    ⟨.major_classic, .hilly, 185, 3, 0.1, 0.6, 0.7, 0.1⟩),
   ("race/e3-harelbeke",
    ⟨.major_classic, .cobbles_hills, 205, 3, 0.15, 0.35, 0.2, 0.6⟩),
   ("race/gent-wevelgem",
    ⟨.major_classic, .cobbles_hills, 250, 3, 0.6, 0.2, 0.1, 0.4⟩),
   ("race/amstel-gold-race",
    ⟨.major_classic, .hilly, 260, 4, 0.2, 0.55, 0.6, 0.0⟩),
   ("race/la-fleche-wallone",
    ⟨.major_classic, .hilly, 195, 4, 0.0, 0.75, 0.95, 0.0⟩),
   ("race/san-sebastian",
    ⟨.major_classic, .hilly, 225, 7, 0.1, 0.7, 0.4, 0.0⟩),
   ("race/dwars-door-vlaanderen",
    ⟨.semi_classic, .cobbles_hills, 185, 3, 0.2, 0.3, 0.2, 0.5⟩),
   ("race/brabantse-pijl",
    ⟨.semi_classic, .hilly, 200, 4, 0.15, 0.5, 0.4, 0.0⟩),
   ("race/kuurne-brussel-kuurne",
    ⟨.semi_classic, .flat_punch, 197, 3, 0.8, 0.1, 0.0, 0.1⟩),
   ("race/omloop-het-nieuwsblad",
    ⟨.major_classic, .cobbles_hills, 200, 3, 0.15, 0.35, 0.15, 0.5⟩),
   ("race/gp-samyn",
    ⟨.semi_classic, .cobbles, 200, 3, 0.1, 0.1, 0.0, 0.5⟩),
   ("race/nokere-koerse",
    ⟨.semi_classic, .flat_punch, 195, 3, 0.7, 0.1, 0.0, 0.3⟩),
   ("race/bredene-koksijde-classic",
    ⟨.semi_classic, .flat_punch, 200, 3, 0.6, 0.05, 0.0, 0.0⟩),
   ("race/brugge-de-panne",
    ⟨.major_classic, .flat_punch, 205, 3, 0.75, 0.05, 0.0, 0.1⟩),
   ("race/scheldeprijs",
    ⟨.semi_classic, .flat_punch, 200, 4, 0.95, 0.0, 0.0, 0.0⟩),
   ("race/ronde-van-limburg",
    ⟨.semi_classic, .hilly, 200, 4, 0.4, 0.35, 0.2, 0.0⟩)]

/-- The `TEAM_TIERS` table, in source order. -/
def TEAM_TIERS : List (String × Nat) :=
  [("uae-team-emirates", 1),
   ("team-visma-lease-a-bike", 1),
   ("alpecin-deceuninck", 1),
   ("lidl-trek", 1),
   ("soudal-quick-step", 1),
   ("ineos-grenadiers", 2),
   ("groupama-fdj", 2),
   ("bahrain-victorious", 2),
   ("team-jayco-alula", 2),
   ("ef-education-easypost", 2),
   ("intermarche-wanty", 2),
   ("lotto-dstny", 2),
   ("movistar-team", 2),
   ("decathlon-ag2r-la-mondiale-team", 2),
   ("cofidis", 2),
   ("team-dsm-firmenich-postnl", 2),
   ("uno-x-mobility", 2)]

/-- Lookup of `CLASSICS_METADATA.get(race_base_url, {})`: `none` plays
the role of the empty dict (every consumer then uses its default). -/
def classicsMeta (race_base_url : String) : Option RaceMeta :=
  CLASSICS_METADATA.lookup race_base_url

/-- The `_similar_terrain_classics` helper: race base URLs of classics
with the given terrain, in table order. -/
def similarTerrainClassics (terrain : TerrainType) : List String :=
  (CLASSICS_METADATA.filter (fun p => p.2.terrain = terrain)).map (·.1)

/-- Python `int(x)` on a float value: truncation toward zero. -/
def pyInt (q : ℚ) : Int :=
  Int.tdiv q.num q.den

/-- Round-half-to-even on rationals, the idealization of Python's
`round` on the exact value. -/
def roundTiesEven (q : ℚ) : Int :=
  let f := Rat.floor q
  let r := q - f
  if r < 1/2 then f
  else if 1/2 < r then f + 1
  else if f % 2 = 0 then f else f + 1

/-- Python `round(q, n)` (on the exact rational value). -/
def pyRound (n : Nat) (q : ℚ) : ℚ :=
  (roundTiesEven (q * 10 ^ n) : ℚ) / 10 ^ n

/-- Abstraction of the `math` library kernels used by the predictor:
`math.exp` and `math.log1p` are external library code, so the embedding
takes them as a parameter. -/
structure MathKernel where
  exp : ℚ → ℚ
  log1p : ℚ → ℚ

/-- Properties of the real `exp`/`log1p` used by the range proofs. -/
structure KernelFacts (K : MathKernel) : Prop where
  exp_nonneg : ∀ x : ℚ, x ≤ 0 → 0 ≤ K.exp x
  exp_le_one : ∀ x : ℚ, x ≤ 0 → K.exp x ≤ 1
  log1p_nonneg : ∀ x : ℚ, 0 ≤ x → 0 ≤ K.log1p x
  log1p_pos : ∀ x : ℚ, 0 < x → 0 < K.log1p x

/-- A concrete computable kernel satisfying `KernelFacts`, used to
instantiate witnesses (any kernel works for the structural theorems). -/
def unitKernel : MathKernel where
  exp := fun x => if x ≤ 0 then 1/2 else 2
  log1p := fun x => x

/-!
The thirteen feature scorers of `ClassicsPredictor`, translated from
`src/procyclingstats/classics_predictor.py`.  Imperative accumulation
loops are rendered as `filterMap`/`map`/`sum` over the same records in
the same order; early `return`s become `if`/`match` branches.
-/

/-- The `_age_from_birthdate` helper (tuple comparison of `(month, day)`
is Python's lexicographic order, written out explicitly). -/
def age_from_birthdate (bd : PDate) (reference_date : PDate) : Int :=
  (reference_date.y : Int) - bd.y -
    (if reference_date.m < bd.m ∨ (reference_date.m = bd.m ∧ reference_date.d < bd.d)
     then 1 else 0)

/-- The `_score_age_distance` scorer. -/
def score_age_distance (K : MathKernel) (age : Option Int) (distance : ℚ) : ℚ :=
  match age with
  | none => 0.5
  | some age =>
    let optimal_age : ℚ := 26.0 + (distance - 180.0) * 0.042
    let sigma : ℚ := max 3.5 (5.5 - (distance - 180.0) * 0.012)
    let score := K.exp (-0.5 * (((age : ℚ) - optimal_age) / sigma) ^ 2)
    if age < 24 ∧ 250 ≤ distance then
      let youth_penalty : ℚ := 0.7 + ((age : ℚ) - 20) * 0.075
      score * max 0.5 (min 1.0 youth_penalty)
    else
      score

/-- Race-class weight branch of `_score_recent_form` (substring tests on
the `class` field, in source order). -/
def classWeight (race_class : String) : ℚ :=
  if strContains race_class "UWT" || strContains race_class "WC" then 1.3
  else if strContains race_class "Pro" || strContains race_class "1." then 1.0
  else 0.7

/-- Result-quality branch of `_score_recent_form`: `1st = 1.0`, each
further place costs `0.05`; non-numeric ranks count `0.0`.  Mirrors the
source exactly: the `int` branch requires `rank > 0` but the digit-string
branch does not. -/
def resultScore005 (rank : PRank) : ℚ :=
  match rank with
  | .rint n => if 0 < n then max 0.0 (1.0 - ((n : ℚ) - 1) * 0.05) else 0.0
  | .rstr s =>
    match digitsVal s with
    | some r => max 0.0 (1.0 - ((r : ℚ) - 1) * 0.05)
    | none => 0.0
  | .rnone => 0.0

/-- Results of `results` that fall in the trailing window
`0 < days_ago ≤ window_days`, paired with their `days_ago`. -/
def windowResults (results : List ResultRecord) (race_date : PDate)
    (window_days : Int) : List (ResultRecord × Int) :=
  results.filterMap fun r =>
    r.date.bind fun rdate =>
      let days_ago := daysBetween race_date rdate
      if 0 < days_ago ∧ days_ago ≤ window_days then some (r, days_ago) else none

/-- Recency-times-class weight of one windowed result in
`_score_recent_form` (window hardcoded to the default 90 days, the only
value the repository uses). -/
def recentFormWeight (p : ResultRecord × Int) : ℚ :=
  (1.0 - ((p.2 : ℚ) / 90) * 0.5) * classWeight p.1.race_class

/-- The `_score_recent_form` scorer (default `window_days = 90`). -/
def score_recent_form (results : List ResultRecord) (race_date : PDate) : ℚ :=
  let relevant := windowResults results race_date 90
  if relevant = [] then 0.0
  else
    let total_score := (relevant.map fun p => resultScore005 p.1.rank * recentFormWeight p).sum
    let total_weight := (relevant.map recentFormWeight).sum
    if 0 < total_weight then total_score / total_weight else 0.0

/-- Result-quality branch of `_score_classic_pedigree` (decay `0.018`;
again no positivity check in the digit-string branch). -/
def resultScore0018 (rank : PRank) : ℚ :=
  match rank with
  | .rint n => if 0 < n then max 0.0 (1.0 - ((n : ℚ) - 1) * 0.018) else 0.0
  | .rstr s =>
    match digitsVal s with
    | some r => max 0.0 (1.0 - ((r : ℚ) - 1) * 0.018)
    | none => 0.0
  | .rnone => 0.0

/-- Results in this specific classic within the last `years_back = 5`
editions, paired with their year. -/
def pedigreeResults (results : List ResultRecord) (race_base_url : String)
    (current_year : Int) : List (ResultRecord × Int) :=
  results.filterMap fun r =>
    if !strContains r.stage_url race_base_url then none
    else
      r.date.bind fun rdate =>
        if current_year - 5 ≤ (rdate.y : Int) ∧ (rdate.y : Int) < current_year
        then some (r, (rdate.y : Int)) else none

/-- Recency weight of a pedigree result: `1 / (1 + years_ago * 0.4)`. -/
def pedigreeWeight (current_year : Int) (p : ResultRecord × Int) : ℚ :=
  1.0 / (1.0 + ((current_year - p.2 : Int) : ℚ) * 0.4)

/-- The `_score_classic_pedigree` scorer (default `years_back = 5`). -/
def score_classic_pedigree (results : List ResultRecord) (race_base_url : String)
    (current_year : Int) : ℚ :=
  let classic_results := pedigreeResults results race_base_url current_year
  if classic_results = [] then 0.0
  else
    let total_score :=
      (classic_results.map fun p => resultScore0018 p.1.rank * pedigreeWeight current_year p).sum
    let total_weight := (classic_results.map (pedigreeWeight current_year)).sum
    if 0 < total_weight then total_score / total_weight else 0.0

/-- The `_score_specialty` scorer. -/
def score_specialty (K : MathKernel) (profile : Profile) : ℚ :=
  let one_day_pts := profile.points_per_speciality.one_day_races
  if one_day_pts ≤ 0 then 0.0
  else min 1.0 (K.log1p one_day_pts / K.log1p 4000.0)

/-- Numeric view of a rank as used by `_score_previous_year` and
`_score_momentum`: ints pass through, digit strings are converted with
`int(...)`, everything else is non-numeric. -/
def numericRank (rank : PRank) : Option Int :=
  match rank with
  | .rint n => some n
  | .rstr s => (digitsVal s).map (fun n => (n : Int))
  | .rnone => none

/-- Rank score of `_score_previous_year` (`none` when the record is
skipped because the rank is not a positive integer). -/
def prevYearRankScore (rank : PRank) : Option ℚ :=
  match numericRank rank with
  | none => none
  | some rank => if rank ≤ 0 then none else some (max 0.0 (1.0 - ((rank : ℚ) - 1) * 0.025))

/-- The per-result entry list of `_score_previous_year`: `Sum.inl`
carries a same-race rank score, `Sum.inr` a similar-terrain rank score,
both only for prior-year results with a positive numeric rank. -/
def prevYearEntries (results : List ResultRecord) (race_base_url : String)
    (terrain : TerrainType) (current_year : Int) : List (ℚ ⊕ ℚ) :=
  results.filterMap fun r =>
    r.date.bind fun rdate =>
      if (rdate.y : Int) ≠ current_year - 1 then none
      else
        (prevYearRankScore r.rank).bind fun rank_score =>
          if strContains r.stage_url race_base_url then some (Sum.inl rank_score)
          else if (similarTerrainClassics terrain).any
              (fun u => strContains r.stage_url u && u ≠ race_base_url)
          then some (Sum.inr rank_score)
          else none

/-- The `_score_previous_year` scorer: the fold over `inl` entries is the
running `max` of the source, the `inr` list is `similar_scores`. -/
def score_previous_year (results : List ResultRecord) (race_base_url : String)
    (terrain : TerrainType) (current_year : Int) : ℚ :=
  let entries := prevYearEntries results race_base_url terrain current_year
  let same_race_score :=
    (entries.filterMap fun e => match e with | .inl q => some q | .inr _ => none).foldl max 0.0
  let similar_scores :=
    entries.filterMap fun e => match e with | .inl _ => none | .inr q => some q
  let similar_avg : ℚ :=
    if similar_scores = [] then 0.0
    else similar_scores.sum / (similar_scores.length : ℚ)
  same_race_score * 0.6 + similar_avg * 0.4

/-- Results of the current season strictly before the race, paired with
their dates (`season_start <= rdate < race_date` in the source). -/
def seasonResults (results : List ResultRecord) (race_date : PDate) :
    List (PDate × ResultRecord) :=
  results.filterMap fun r =>
    r.date.bind fun rdate =>
      if (PDate.mk race_date.y 1 1).toDays ≤ rdate.toDays ∧ rdate.toDays < race_date.toDays
      then some (rdate, r) else none

/-- The `_score_preparation` scorer. -/
def score_preparation (results : List ResultRecord) (race_date : PDate) : ℚ :=
  let season_start : PDate := ⟨race_date.y, 1, 1⟩
  let race_days : Nat := (seasonResults results race_date).length
  let days_into_season : Int := daysBetween race_date season_start
  let optimal_low : Int := max 10 (pyInt ((days_into_season : ℚ) * 0.20))
  let optimal_high : Int := max 20 (pyInt ((days_into_season : ℚ) * 0.35))
  if optimal_low ≤ (race_days : Int) ∧ (race_days : Int) ≤ optimal_high then 1.0
  else if (race_days : Int) < optimal_low then max 0.1 ((race_days : ℚ) / (optimal_low : ℚ))
  else max 0.3 (1.0 - (((race_days : Int) - optimal_high : Int) : ℚ) * 0.02)

/-- Ranks that `_score_injury` counts as a recent non-finish:
`rank is None` or one of the four sentinel strings. -/
def isDNFRank (rank : PRank) : Bool :=
  match rank with
  | .rnone => true
  | .rstr s => s = "DNF" || s = "DNS" || s = "DSQ" || s = "OTL"
  | .rint _ => false

/-- Comparison used for `season_results.sort(key=lambda x: x[0])`
(ascending by date; `mergeSort` with this key is stable, like Python's
sort). -/
def dateLE (a b : PDate × ResultRecord) : Bool :=
  decide (a.1.toDays ≤ b.1.toDays)

/-- The `_score_injury` scorer.  The three penalty factors multiply a
starting penalty of `1.0`; the per-gap loop becomes a product over
consecutive pairs of the sorted season list. -/
def score_injury (results : List ResultRecord) (race_date : PDate) : ℚ :=
  match (seasonResults results race_date).mergeSort dateLE with
  | [] => 0.3
  | first :: rest =>
    let sorted := first :: rest
    let expected_start : PDate := ⟨race_date.y, 1, 25⟩
    let p1 : ℚ :=
      if expected_start.toDays < first.1.toDays then
        max 0.5 (1.0 - ((daysBetween first.1 expected_start : Int) : ℚ) * 0.007)
      else 1.0
    let gaps := List.zipWith (fun prev next => daysBetween next.1 prev.1) sorted sorted.tail
    let gapPenalty : Int → ℚ := fun gap =>
      if 28 < gap then max 0.85 (1.0 - ((gap - 28 : Int) : ℚ) * 0.003) else 1
    let p2 := (gaps.map gapPenalty).prod
    let recent_cutoff := race_date.toDays - 30
    let dnf_count :=
      sorted.countP fun p => decide (recent_cutoff ≤ p.1.toDays) && isDNFRank p.2.rank
    let p3 : ℚ := if 0 < dnf_count then max 0.6 (1.0 - (dnf_count : ℚ) * 0.12) else 1
    max 0.3 (p1 * p2 * p3)

/-- The `_score_terrain_match` scorer.  The `match` covers all five
terrain values, so the dead `else` branch of the Python if/elif chain
has no counterpart. -/
def score_terrain_match (K : MathKernel) (profile : Profile) (terrain : TerrainType)
    (race_meta : Option RaceMeta) : ℚ :=
  let s := profile.points_per_speciality
  let climbing_diff := (race_meta.map RaceMeta.climbing_difficulty).getD 0.4
  let rr : ℚ × ℚ :=
    match terrain with
    | .cobbles => (s.one_day_races * 0.5 + s.time_trial * 0.35 + s.gc * 0.15, 4000.0)
    | .hilly | .mountainous =>
      (s.one_day_races * (0.4 - climbing_diff * 0.15) + s.climber * climbing_diff * 0.5
        + s.gc * climbing_diff * 0.3 + s.time_trial * (1 - climbing_diff) * 0.1, 3500.0)
    | .flat_punch =>
      (s.one_day_races * 0.35 + s.sprint * 0.4 + s.time_trial * 0.15 + s.gc * 0.1, 3500.0)
    | .cobbles_hills =>
      (s.one_day_races * 0.4 + s.time_trial * 0.2 + s.climber * 0.2
        + s.gc * 0.1 + s.sprint * 0.1, 3500.0)
  if rr.1 ≤ 0 then 0.0 else min 1.0 (K.log1p rr.1 / K.log1p rr.2)

/-- The `_score_sprint_capability` scorer. -/
def score_sprint_capability (K : MathKernel) (profile : Profile)
    (race_meta : Option RaceMeta) : ℚ :=
  let sprint_prob := (race_meta.map RaceMeta.sprint_finish_prob).getD 0.2
  let s := profile.points_per_speciality
  let sprint_score : ℚ :=
    if 0 < s.sprint then min 1.0 (K.log1p s.sprint / K.log1p 2000.0) else 0.0
  let punch_score : ℚ :=
    if 0 < s.one_day_races then min 1.0 (K.log1p s.one_day_races / K.log1p 4000.0) else 0.0
  sprint_score * sprint_prob + punch_score * (1.0 - sprint_prob)

/-- The `_score_uphill_sprint` scorer. -/
def score_uphill_sprint (K : MathKernel) (profile : Profile)
    (race_meta : Option RaceMeta) : ℚ :=
  let uphill_prob := (race_meta.map RaceMeta.uphill_finish_prob).getD 0.2
  let s := profile.points_per_speciality
  let raw := s.climber * 0.45 + s.one_day_races * 0.35 + s.gc * 0.20
  let puncheur_score : ℚ := if raw ≤ 0 then 0.0 else min 1.0 (K.log1p raw / K.log1p 4000.0)
  let generic_score : ℚ :=
    if 0 < s.one_day_races then min 1.0 (K.log1p s.one_day_races / K.log1p 4000.0) else 0.0
  puncheur_score * uphill_prob + generic_score * (1.0 - uphill_prob)

/-- The `_score_cobble_capability` scorer. -/
def score_cobble_capability (K : MathKernel) (profile : Profile)
    (race_meta : Option RaceMeta) : ℚ :=
  let cobble_diff := (race_meta.map RaceMeta.cobble_difficulty).getD 0.0
  let s := profile.points_per_speciality
  let raw := s.one_day_races * 0.45 + s.time_trial * 0.40 + s.sprint * 0.15
  let cobble_score : ℚ := if raw ≤ 0 then 0.0 else min 1.0 (K.log1p raw / K.log1p 4000.0)
  let generic_score : ℚ :=
    if 0 < s.one_day_races then min 1.0 (K.log1p s.one_day_races / K.log1p 4000.0) else 0.0
  cobble_score * cobble_diff + generic_score * (1.0 - cobble_diff)

/-- One bucket of `_score_momentum`: qualities of numeric-rank results
with `lo < days_ago ≤ hi` (`(0, 30]` is `recent`, `(30, 60]` is
`earlier`; results on or after the race date are skipped first). -/
def momentumBucket (results : List ResultRecord) (race_date : PDate)
    (lo hi : Int) : List ℚ :=
  results.filterMap fun r =>
    r.date.bind fun rdate =>
      let days_ago := daysBetween race_date rdate
      if days_ago ≤ 0 then none
      else
        match numericRank r.rank with
        | none => none
        | some rank =>
          if rank ≤ 0 then none
          else if lo < days_ago ∧ days_ago ≤ hi then
            some (max 0.0 (1.0 - ((rank : ℚ) - 1) * 0.05))
          else none

/-- The `_score_momentum` scorer. -/
def score_momentum (results : List ResultRecord) (race_date : PDate) : ℚ :=
  let recent := momentumBucket results race_date 0 30
  let earlier := momentumBucket results race_date 30 60
  if recent = [] then 0.3
  else
    let recent_avg := recent.sum / (recent.length : ℚ)
    let trajectory_score : ℚ :=
      if earlier = [] then 0.5
      else
        let earlier_avg := earlier.sum / (earlier.length : ℚ)
        max 0.0 (min 1.0 (0.5 + (recent_avg - earlier_avg) * 0.5))
    let podium_count := recent.countP (fun q => decide ((0.85 : ℚ) ≤ q))
    let podium_bonus : ℚ := min 0.3 ((podium_count : ℚ) * 0.1)
    max 0.0 (min 1.0 (recent_avg * 0.5 + trajectory_score * 0.3 + podium_bonus / 0.3 * 0.2))

/-- The `_score_team_strength` scorer (`none` team models the missing or
empty team slug). -/
def score_team_strength (rider_data : RiderData) : ℚ :=
  match rider_data.team with
  | none => 0.5
  | some team =>
    let tier := (TEAM_TIERS.lookup team).getD 3
    if tier = 1 then 1.0 else if tier = 2 then 0.7 else 0.4

/-- The feature dict built by `_compute_features`, as a record with one
field per key, in insertion order. -/
structure Features where
  age_distance_fit : ℚ
  recent_form : ℚ
  classic_pedigree : ℚ
  specialty_score : ℚ
  previous_year : ℚ
  preparation : ℚ
  injury_penalty : ℚ
  terrain_match : ℚ
  sprint_capability : ℚ
  uphill_sprint : ℚ
  cobble_capability : ℚ
  momentum : ℚ
  team_strength : ℚ
deriving DecidableEq

/-- Apply a function to every feature value (the dict comprehension
`{k: round(v, 3) for k, v in features.items()}`). -/
def Features.mapValues (g : ℚ → ℚ) (f : Features) : Features where
  age_distance_fit := g f.age_distance_fit
  recent_form := g f.recent_form
  classic_pedigree := g f.classic_pedigree
  specialty_score := g f.specialty_score
  previous_year := g f.previous_year
  preparation := g f.preparation
  injury_penalty := g f.injury_penalty
  terrain_match := g f.terrain_match
  sprint_capability := g f.sprint_capability
  uphill_sprint := g f.uphill_sprint
  cobble_capability := g f.cobble_capability
  momentum := g f.momentum
  team_strength := g f.team_strength

/-- The `_compute_features` method. -/
def compute_features (K : MathKernel) (rider_data : RiderData)
    (race_base_url : String) (terrain : TerrainType) (distance : ℚ)
    (race_date : PDate) (year : Int) : Features :=
  let profile := rider_data.profile
  let results := rider_data.results
  let age : Option Int := profile.birthdate.map (fun bd => age_from_birthdate bd race_date)
  let race_meta := classicsMeta race_base_url
  { age_distance_fit := score_age_distance K age distance
    recent_form := score_recent_form results race_date
    classic_pedigree := score_classic_pedigree results race_base_url year
    specialty_score := score_specialty K profile
    previous_year := score_previous_year results race_base_url terrain year
    preparation := score_preparation results race_date
    injury_penalty := score_injury results race_date
    terrain_match := score_terrain_match K profile terrain race_meta
    sprint_capability := score_sprint_capability K profile race_meta
    uphill_sprint := score_uphill_sprint K profile race_meta
    cobble_capability := score_cobble_capability K profile race_meta
    momentum := score_momentum results race_date
    team_strength := score_team_strength rider_data }

/-- Weight mappings are association lists in dict insertion order (keys
unique in all inputs the code builds). -/
abbrev WeightMap := List (String × ℚ)

/-- Python `self.weights.get(fname, 0)`. -/
def weightGet (w : WeightMap) (fname : String) : ℚ :=
  (w.lookup fname).getD 0

/-- The `DEFAULT_WEIGHTS` table, in source order. -/
def DEFAULT_WEIGHTS : WeightMap :=
  [("classic_pedigree", 0.15),
   ("terrain_match", 0.15),
   ("uphill_sprint", 0.12),
   ("cobble_capability", 0.12),
   ("sprint_capability", 0.08),
   ("team_strength", 0.059),
   ("preparation", 0.053),
   ("previous_year", 0.05),
   ("specialty_score", 0.046),
   ("injury_penalty", 0.046),
   ("recent_form", 0.046),
   ("momentum", 0.046),
   ("age_distance_fit", 0.033)]

/-- The normalization in `ClassicsPredictor.__init__`:
`{k: v / total for k, v in raw.items()}` with `total = sum(raw.values())`.
For a zero `total` Python would raise `ZeroDivisionError` on the first
entry; the only zero-total mapping that constructs silently is the empty
one, for which no division is executed, matching Lean's `x / 0 = 0`
never being reached. -/
def normalizeWeights (raw : WeightMap) : WeightMap :=
  let total := (raw.map (·.2)).sum
  raw.map fun kv => (kv.1, kv.2 / total)

/-- Stored `self.weights` after `ClassicsPredictor.__init__` (argument
`none` models `weights=None`, which falls back to `DEFAULT_WEIGHTS`). -/
def predictorWeights (weights : Option WeightMap) : WeightMap :=
  normalizeWeights (weights.getD DEFAULT_WEIGHTS)

/-- The composite score of `predict`:
`sum(self.weights.get(fname, 0) * fval for fname, fval in features.items())`,
written out over the thirteen keys in dict order. -/
def predScore (w : WeightMap) (f : Features) : ℚ :=
  weightGet w "age_distance_fit" * f.age_distance_fit
    + weightGet w "recent_form" * f.recent_form
    + weightGet w "classic_pedigree" * f.classic_pedigree
    + weightGet w "specialty_score" * f.specialty_score
    + weightGet w "previous_year" * f.previous_year
    + weightGet w "preparation" * f.preparation
    + weightGet w "injury_penalty" * f.injury_penalty
    + weightGet w "terrain_match" * f.terrain_match
    + weightGet w "sprint_capability" * f.sprint_capability
    + weightGet w "uphill_sprint" * f.uphill_sprint
    + weightGet w "cobble_capability" * f.cobble_capability
    + weightGet w "momentum" * f.momentum
    + weightGet w "team_strength" * f.team_strength

/-- One prediction dict.  `rank` is `0` until assigned (the Python dict
has no `rank` key before the final loop). -/
structure Prediction where
  rider_name : String
  rider_url : String
  score : ℚ
  features : Features
  rank : Nat
deriving DecidableEq

/-- The prediction list built by the per-rider loop of `predict`, before
sorting.  Riders whose URL is absent from `rider_data` are skipped, as in
the data-provided path (the live-scraping fallback is I/O and outside the
embedding; its `None` failure result likewise skips the rider). -/
def scoredPredictions (K : MathKernel) (weights : WeightMap)
    (race_base_url : String) (terrain : TerrainType) (distance : ℚ)
    (race_date : PDate) (year : Int) (startlist : List StartEntry)
    (rider_data : List (String × RiderData)) : List Prediction :=
  startlist.filterMap fun e =>
    (rider_data.lookup e.rider_url).map fun rdata =>
      let features := compute_features K rdata race_base_url terrain distance race_date year
      { rider_name := e.rider_name
        rider_url := e.rider_url
        score := pyRound 1 (predScore weights features * 100)
        features := features.mapValues (pyRound 3)
        rank := 0 }

/-- Sort key of `predictions.sort(key=lambda p: p["score"], reverse=True)`:
descending by score; `mergeSort` with this relation keeps equal-score
entries in input order, exactly like Python's stable sort with
`reverse=True`. -/
def predLE (a b : Prediction) : Bool :=
  decide (b.score ≤ a.score)

/-- The final loop `for i, p in enumerate(predictions, 1): p["rank"] = i`. -/
def assignRanks (l : List Prediction) : List Prediction :=
  List.zipWith (fun i p => { p with rank := i }) (List.range' 1 l.length) l

/-- The terrain resolved by `predict`:
`race_meta.get("terrain", TerrainType.HILLY)`. -/
def resolvedTerrain (race_base_url : String) : TerrainType :=
  ((classicsMeta race_base_url).map RaceMeta.terrain).getD .hilly

/-- The unsorted prediction list of `predict_from_data` (all data
provided, so `predict` performs no fetching). -/
def predictUnsorted (K : MathKernel) (weights : WeightMap)
    (race_base_url : String) (year : Int) (distance : ℚ) (race_date : PDate)
    (startlist : List StartEntry) (rider_data : List (String × RiderData)) :
    List Prediction :=
  scoredPredictions K weights race_base_url (resolvedTerrain race_base_url)
    distance race_date year startlist rider_data

/-- The `predict_from_data` entry point (equivalently `predict` with all
data supplied): score, stable-sort descending, assign 1-based ranks. -/
def predict_from_data (K : MathKernel) (weights : WeightMap)
    (race_base_url : String) (year : Int) (distance : ℚ) (race_date : PDate)
    (startlist : List StartEntry) (rider_data : List (String × RiderData)) :
    List Prediction :=
  assignRanks ((predictUnsorted K weights race_base_url year distance race_date
    startlist rider_data).mergeSort predLE)

/-!
The backtest scorer and the grid-search weight optimizer from
`src/tests/test_backtest_2025.py`.
-/

/-- Metric dict returned by `score_predictions`. -/
structure BacktestMetrics where
  top10_hit_rate : ℚ
  top5_hit_rate : ℚ
  winner_in_top3 : ℚ
  winner_in_top5 : ℚ
  avg_rank_error : ℚ
deriving DecidableEq

/-- The `score_predictions` function.  `actual_top10` entries are
`Option String`, `none` being the Python `None` placeholder for a
finisher outside the prediction universe.  Python `set` intersections
become `Finset` intersections of the deduplicated prefixes. -/
def score_predictions (predictions : List Prediction)
    (actual_top10 : List (Option String)) : BacktestMetrics :=
  let actual_known := actual_top10.filterMap id
  if actual_known = [] then
    ⟨0, 0, 0, 0, 20⟩
  else
    let pred_urls := predictions.map Prediction.rider_url
    let pred_top10 := (pred_urls.take 10).toFinset
    let pred_top5 := (pred_urls.take 5).toFinset
    let actual_top10_known := (actual_known.take 10).toFinset
    let hits_10 := (actual_top10_known ∩ pred_top10).card
    let top10_hit : ℚ :=
      if actual_top10_known ≠ ∅ then (hits_10 : ℚ) / (actual_top10_known.card : ℚ) else 0
    let actual_top5_known := (actual_known.take 5).toFinset
    let hits_5 := (actual_top5_known ∩ pred_top5).card
    let top5_hit : ℚ :=
      if actual_top5_known ≠ ∅ then (hits_5 : ℚ) / (actual_top5_known.card : ℚ) else 0
    let actual_winner := actual_known.head?
    let winner_top3 : ℚ :=
      match actual_winner with
      | some w => if w ∈ pred_urls.take 3 then 1.0 else 0.0
      | none => 0.0
    let winner_top5 : ℚ :=
      match actual_winner with
      | some w => if w ∈ pred_urls.take 5 then 1.0 else 0.0
      | none => 0.0
    let rank_errors : List ℚ := (actual_known.take 10).enum.filterMap fun iu =>
      if iu.2 ∈ pred_urls then
        some ((((iu.1 + 1 : Int) - (pred_urls.indexOf iu.2 + 1 : Int)).natAbs : ℚ))
      else none
    let avg_err : ℚ :=
      if rank_errors = [] then 20 else rank_errors.sum / (rank_errors.length : ℚ)
    ⟨top10_hit, top5_hit, winner_top3, winner_top5, avg_err⟩

/-- Aggregate metric dict returned by `run_backtest` (averages over the
scored races).  `run_backtest` itself re-runs the predictor over the full
2025 fixture set; the optimizer below abstracts it as a function
returning `none` for the empty dict `{}` (all races skipped). -/
structure AggMetrics where
  avg_top10_hit : ℚ
  avg_top5_hit : ℚ
  winner_top3_pct : ℚ
  winner_top5_pct : ℚ
  avg_rank_error : ℚ
deriving DecidableEq

/-- The composite objective of `optimize_weights`. -/
def compositeScore (m : AggMetrics) : ℚ :=
  0.30 * m.avg_top10_hit + 0.30 * m.avg_top5_hit + 0.20 * m.winner_top5_pct
    + 0.10 * m.winner_top3_pct + 0.10 * max 0 (1.0 - m.avg_rank_error / 20)

/-- The candidate weight dict built in the innermost loop of
`optimize_weights`, in dict-literal order. -/
def mkCandidate (cp tm ss py prep sp rest : ℚ) : WeightMap :=
  [("classic_pedigree", cp),
   ("terrain_match", tm),
   ("specialty_score", ss),
   ("previous_year", py),
   ("preparation", prep),
   ("sprint_capability", sp),
   ("injury_penalty", rest * 0.25),
   ("recent_form", rest * 0.15),
   ("age_distance_fit", rest * 0.15),
   ("momentum", rest * 0.20),
   ("team_strength", rest * 0.25)]

/-- The candidate enumeration of `optimize_weights`: the nested loops
with their two `continue` pruning bands, flattened in loop order. -/
def gridCandidates (cps tms sss pys preps sps : List ℚ) : List WeightMap :=
  cps.flatMap fun cp =>
    tms.flatMap fun tm =>
      sss.flatMap fun ss =>
        pys.flatMap fun py =>
          let remaining := 1.0 - (cp + tm + ss + py)
          if remaining < 0.20 ∨ remaining > 0.60 then []
          else
            preps.flatMap fun prep =>
              sps.flatMap fun sp =>
                let rest := remaining - prep - sp
                if rest < 0.10 ∨ rest > 0.45 then []
                else [mkCandidate cp tm ss py prep sp rest]

/-- The hard-coded step lists of `optimize_weights`. -/
def cpSteps : List ℚ := [0.15, 0.20, 0.25, 0.30, 0.35]

/-- Step list for `terrain_match`. -/
def tmSteps : List ℚ := [0.05, 0.10, 0.15, 0.20]

/-- Step list for `specialty_score`. -/
def ssSteps : List ℚ := [0.05, 0.10, 0.15]

/-- Step list for `previous_year`. -/
def pySteps : List ℚ := [0.05, 0.10, 0.15]

/-- Step list for `preparation`. -/
def prepSteps : List ℚ := [0.05, 0.10, 0.15]

/-- Step list for `sprint_capability`. -/
def spSteps : List ℚ := [0.03, 0.05, 0.08]

/-- One loop iteration of `optimize_weights`: skip when the backtest
returns the empty dict, otherwise keep the candidate only on a strict
improvement of the composite score. -/
def optimizeStep (backtest : WeightMap → Option AggMetrics)
    (acc : ℚ × Option (WeightMap × AggMetrics)) (w : WeightMap) :
    ℚ × Option (WeightMap × AggMetrics) :=
  match backtest w with
  | none => acc
  | some m => if compositeScore m > acc.1 then (compositeScore m, some (w, m)) else acc

/-- The `optimize_weights` search over given step lists, starting from
`best_score = -1`, `best_weights = best_metrics = None`; `none` is the
`(None, None)` return. -/
def optimizeWeightsWith (cps tms sss pys preps sps : List ℚ)
    (backtest : WeightMap → Option AggMetrics) :
    Option (WeightMap × AggMetrics) :=
  ((gridCandidates cps tms sss pys preps sps).foldl (optimizeStep backtest)
    ((-1 : ℚ), none)).2

/-- The `optimize_weights` function with its hard-coded step lists,
parameterized by the `run_backtest` evaluation. -/
def optimize_weights (backtest : WeightMap → Option AggMetrics) :
    Option (WeightMap × AggMetrics) :=
  optimizeWeightsWith cpSteps tmSteps ssSteps pySteps prepSteps spSteps backtest

/-- The candidates that survive both pruning bands and the backtest,
paired with their metrics, in search order. -/
def scoredCandidates (backtest : WeightMap → Option AggMetrics)
    (cands : List WeightMap) : List (WeightMap × AggMetrics) :=
  cands.filterMap fun w => (backtest w).map fun m => (w, m)

/-!
Specification-side definitions used to state and settle individual
claims (these follow the claims' wording, for comparison against the
source-translated definitions above).
-/

/-- Numeric-rank results strictly before the race date, as
`(days_ago, quality)` pairs with quality `max(0, 1 - (rank - 1) * 0.05)`
(the claims' vocabulary for the momentum buckets). -/
def numericQualities (results : List ResultRecord) (race_date : PDate) :
    List (Int × ℚ) :=
  results.filterMap fun r =>
    r.date.bind fun rdate =>
      let days_ago := daysBetween race_date rdate
      if 0 < days_ago then
        match numericRank r.rank with
        | none => none
        | some rank =>
          if 0 < rank then some (days_ago, max 0.0 (1.0 - ((rank : ℚ) - 1) * 0.05))
          else none
      else none

/-- Momentum as claim C5 words it, with the sentinel condition amended to
what the code implements: `0.3` when the last-30-days bucket is empty
(the empty-list mean below is then never used). -/
def momentumSpec (results : List ResultRecord) (race_date : PDate) : ℚ :=
  let quals := numericQualities results race_date
  let recent := (quals.filter fun p => decide (0 < p.1 ∧ p.1 ≤ 30)).map (·.2)
  let earlier := (quals.filter fun p => decide (30 < p.1 ∧ p.1 ≤ 60)).map (·.2)
  if recent = [] then 0.3
  else
    let recentMean := recent.sum / (recent.length : ℚ)
    let earlierMean := earlier.sum / (earlier.length : ℚ)
    let trajectoryScore : ℚ :=
      if earlier = [] then 0.5
      else max 0.0 (min 1.0 (0.5 + 0.5 * (recentMean - earlierMean)))
    let podiumBonus : ℚ :=
      min 0.3 (((recent.filter fun q => decide ((0.85 : ℚ) ≤ q)).length : ℚ) * 0.1)
    max 0.0 (min 1.0 (0.5 * recentMean + 0.3 * trajectoryScore + 0.2 * (podiumBonus / 0.3)))

/-- Momentum exactly as claim C5 states it: the `0.3` sentinel applies
only when NO result falls within 60 days before the race date (an empty
recent bucket otherwise contributes the empty mean, `0` by the division
convention). -/
def momentumClaimC5 (results : List ResultRecord) (race_date : PDate) : ℚ :=
  let quals := numericQualities results race_date
  let recent := (quals.filter fun p => decide (0 < p.1 ∧ p.1 ≤ 30)).map (·.2)
  let earlier := (quals.filter fun p => decide (30 < p.1 ∧ p.1 ≤ 60)).map (·.2)
  if recent = [] ∧ earlier = [] then 0.3
  else
    let recentMean := recent.sum / (recent.length : ℚ)
    let earlierMean := earlier.sum / (earlier.length : ℚ)
    let trajectoryScore : ℚ :=
      if earlier = [] then 0.5
      else max 0.0 (min 1.0 (0.5 + 0.5 * (recentMean - earlierMean)))
    let podiumBonus : ℚ :=
      min 0.3 (((recent.filter fun q => decide ((0.85 : ℚ) ≤ q)).length : ℚ) * 0.1)
    max 0.0 (min 1.0 (0.5 * recentMean + 0.3 * trajectoryScore + 0.2 * (podiumBonus / 0.3)))

/-- Claim C6's notion of a malformed rank: neither a positive integer
(directly or as a digit string) nor one of the enumerated non-finish
codes. -/
def rankMalformedB (rank : PRank) : Bool :=
  (match numericRank rank with
   | none => true
   | some n => decide (n ≤ 0)) && !(isDNFRank rank)

/-- A rank whose digit-string form (if any) parses to a positive value;
`_score_recent_form` and `_score_classic_pedigree` can exceed `1.0` only
on ranks violating this. -/
def goodDigitRank (rank : PRank) : Bool :=
  match rank with
  | .rstr s =>
    match digitsVal s with
    | some n => decide (0 < n)
    | none => true
  | _ => true

/-- All thirteen feature values of a feature map are in `[0, 1]`. -/
def Features.allInUnit (f : Features) : Prop :=
  (0 ≤ f.age_distance_fit ∧ f.age_distance_fit ≤ 1)
  ∧ (0 ≤ f.recent_form ∧ f.recent_form ≤ 1)
  ∧ (0 ≤ f.classic_pedigree ∧ f.classic_pedigree ≤ 1)
  ∧ (0 ≤ f.specialty_score ∧ f.specialty_score ≤ 1)
  ∧ (0 ≤ f.previous_year ∧ f.previous_year ≤ 1)
  ∧ (0 ≤ f.preparation ∧ f.preparation ≤ 1)
  ∧ (0 ≤ f.injury_penalty ∧ f.injury_penalty ≤ 1)
  ∧ (0 ≤ f.terrain_match ∧ f.terrain_match ≤ 1)
  ∧ (0 ≤ f.sprint_capability ∧ f.sprint_capability ≤ 1)
  ∧ (0 ≤ f.uphill_sprint ∧ f.uphill_sprint ≤ 1)
  ∧ (0 ≤ f.cobble_capability ∧ f.cobble_capability ≤ 1)
  ∧ (0 ≤ f.momentum ∧ f.momentum ≤ 1)
  ∧ (0 ≤ f.team_strength ∧ f.team_strength ≤ 1)

/-!
General helper lemmas.
-/

/-- The concrete kernel satisfies the kernel facts. -/
theorem unitKernel_facts : KernelFacts unitKernel :=
  ⟨fun _ _ => by simp only [unitKernel]; split <;> norm_num,
   fun x hx => by simp only [unitKernel]; rw [if_pos hx]; norm_num,
   fun _ hx => hx,
   fun _ hx => hx⟩

/-- A rational is in the closed unit interval. -/
def inUnit (q : ℚ) : Prop :=
  0 ≤ q ∧ q ≤ 1

/-- Removing an element that the kernel maps to `none` from anywhere in
the input leaves a `filterMap` unchanged. -/
theorem filterMap_middle_none {α β : Type _} (f : α → Option β) (l1 l2 : List α)
    (r : α) (h : f r = none) :
    (l1 ++ r :: l2).filterMap f = (l1 ++ l2).filterMap f := by
  simp [List.filterMap_append, List.filterMap_cons, h]

/-- Successful association-list lookup yields a member pair. -/
theorem lookup_mem {β : Type _} :
    ∀ (l : List (String × β)) (k : String) (v : β),
      l.lookup k = some v → (k, v) ∈ l := by
  intro l k v
  induction l with
  | nil => intro h; simp [List.lookup] at h
  | cons p ps ih =>
    intro h
    cases hbeq : (k == p.1) with
    | true =>
      simp only [List.lookup, hbeq] at h
      cases h
      have hk : k = p.1 := beq_iff_eq.mp hbeq
      rw [hk]
      exact List.mem_cons_self _ _
    | false =>
      simp only [List.lookup, hbeq] at h
      exact List.mem_cons_of_mem _ (ih h)

/-- Weighted mean of unit-interval values, with nonnegative weights of
positive total, is in the unit interval. -/
theorem weighted_ratio_inUnit {α : Type _} (l : List α) (wt q : α → ℚ)
    (hw : ∀ x ∈ l, 0 ≤ wt x) (h0 : ∀ x ∈ l, 0 ≤ q x) (h1 : ∀ x ∈ l, q x ≤ 1)
    (htw : 0 < (l.map wt).sum) :
    inUnit ((l.map fun x => q x * wt x).sum / (l.map wt).sum) := by
  have hts : 0 ≤ (l.map fun x => q x * wt x).sum :=
    List.sum_nonneg (by
      intro a ha
      obtain ⟨x, hx, rfl⟩ := List.mem_map.mp ha
      exact mul_nonneg (h0 x hx) (hw x hx))
  constructor
  · exact div_nonneg hts htw.le
  · rw [div_le_one htw]
    apply List.sum_le_sum
    intro x hx
    calc q x * wt x ≤ 1 * wt x := mul_le_mul_of_nonneg_right (h1 x hx) (hw x hx)
      _ = wt x := one_mul _

/-- A mean of unit-interval values is in the unit interval (`0` when the
list is empty, by the division convention — the scorers guard that case
separately anyway). -/
theorem mean_inUnit (l : List ℚ) (h0 : ∀ x ∈ l, 0 ≤ x) (h1 : ∀ x ∈ l, x ≤ 1) :
    inUnit (l.sum / (l.length : ℚ)) := by
  cases l with
  | nil => constructor <;> norm_num
  | cons a as =>
    have hlen : (0 : ℚ) < ((a :: as).length : ℚ) := by
      exact_mod_cast Nat.succ_pos as.length
    constructor
    · exact div_nonneg (List.sum_nonneg h0) hlen.le
    · rw [div_le_one hlen]
      have h2 : ((a :: as).map (fun x => x)).sum ≤ ((a :: as).map (fun _ => (1 : ℚ))).sum :=
        List.sum_le_sum h1
      simpa [List.map_const', List.sum_replicate, nsmul_eq_mul, add_comm] using h2


/-- Dividing every value of an association list by `t` divides the value
sum by `t`. -/
theorem list_sum_map_div (l : List (String × ℚ)) (t : ℚ) :
    (l.map fun kv => kv.2 / t).sum = (l.map (·.2)).sum / t := by
  induction l with
  | nil => simp
  | cons x xs ih => simp [ih, add_div]

/-- A record whose window test fails (in particular one with a missing
date, or dated on/after the race day) does not change `windowResults`. -/
theorem windowResults_skip (l1 l2 : List ResultRecord) (r : ResultRecord)
    (race_date : PDate) (w : Int)
    (h : ∀ d0, r.date = some d0 →
      ¬(0 < daysBetween race_date d0 ∧ daysBetween race_date d0 ≤ w)) :
    windowResults (l1 ++ r :: l2) race_date w = windowResults (l1 ++ l2) race_date w := by
  unfold windowResults
  apply filterMap_middle_none
  cases hd : r.date with
  | none => rfl
  | some d0 => simp [hd, h d0 hd]

/-- A record dated `none`, or on/after the race date, or with a
non-positive/non-numeric rank, does not change a momentum bucket. -/
theorem momentumBucket_skip (l1 l2 : List ResultRecord) (r : ResultRecord)
    (race_date : PDate) (lo hi : Int)
    (h : (∀ d0, r.date = some d0 → daysBetween race_date d0 ≤ 0)
       ∨ (∀ n, numericRank r.rank = some n → n ≤ 0)) :
    momentumBucket (l1 ++ r :: l2) race_date lo hi
      = momentumBucket (l1 ++ l2) race_date lo hi := by
  unfold momentumBucket
  apply filterMap_middle_none
  cases hd : r.date with
  | none => rfl
  | some d0 =>
    rcases h with h | h
    · simp [hd, h d0 hd]
    · simp only [hd, Option.some_bind]
      by_cases hdays : daysBetween race_date d0 ≤ 0
      · rw [if_pos hdays]
      · rw [if_neg hdays]
        cases hnr : numericRank r.rank with
        | none => simp [hnr]
        | some n => simp [hnr, h n hnr]

/-- A record with a missing date does not change `pedigreeResults`. -/
theorem pedigreeResults_skip (l1 l2 : List ResultRecord) (r : ResultRecord)
    (race_base_url : String) (current_year : Int) (h : r.date = none) :
    pedigreeResults (l1 ++ r :: l2) race_base_url current_year
      = pedigreeResults (l1 ++ l2) race_base_url current_year := by
  unfold pedigreeResults
  apply filterMap_middle_none
  cases hc : strContains r.stage_url race_base_url <;> simp [h, hc]

/-- A record with a missing date does not change `seasonResults`. -/
theorem seasonResults_skip (l1 l2 : List ResultRecord) (r : ResultRecord)
    (race_date : PDate) (h : r.date = none) :
    seasonResults (l1 ++ r :: l2) race_date = seasonResults (l1 ++ l2) race_date := by
  unfold seasonResults
  apply filterMap_middle_none
  simp [h]

/-- A record with a missing date or a non-positive/non-numeric rank does
not change the entry list of `_score_previous_year`. -/
theorem prevYearEntries_skip (l1 l2 : List ResultRecord) (r : ResultRecord)
    (race_base_url : String) (terrain : TerrainType) (current_year : Int)
    (h : r.date = none ∨ prevYearRankScore r.rank = none) :
    prevYearEntries (l1 ++ r :: l2) race_base_url terrain current_year
      = prevYearEntries (l1 ++ l2) race_base_url terrain current_year := by
  unfold prevYearEntries
  apply filterMap_middle_none
  cases hd : r.date with
  | none => rfl
  | some d0 =>
    rcases h with h | h
    · rw [h] at hd; cases hd
    · simp only [hd, Option.some_bind]
      by_cases hy : (d0.y : Int) ≠ current_year - 1
      · rw [if_pos hy]
      · rw [if_neg hy, h]
        rfl

/-- A non-positive or non-numeric rank yields no previous-year score. -/
theorem prevYearRankScore_none (rank : PRank)
    (h : ∀ n, numericRank rank = some n → n ≤ 0) :
    prevYearRankScore rank = none := by
  unfold prevYearRankScore
  cases hnr : numericRank rank with
  | none => rfl
  | some n => simp [h n hnr, if_pos]

/-- C6's malformed ranks are not numeric-positive. -/
theorem rankMalformedB_numeric (rank : PRank) (h : rankMalformedB rank = true) :
    ∀ n, numericRank rank = some n → n ≤ 0 := by
  intro n hn
  unfold rankMalformedB at h
  rw [hn] at h
  simp at h
  exact_mod_cast h.1

/-- The momentum buckets of the source coincide with the claim's view:
filter the `(days_ago, quality)` pairs of numeric prior results by the
bucket window and keep the qualities. -/
theorem momentumBucket_eq (results : List ResultRecord) (race_date : PDate)
    (lo hi : Int) :
    momentumBucket results race_date lo hi
      = ((numericQualities results race_date).filter
          fun p => decide (lo < p.1 ∧ p.1 ≤ hi)).map (·.2) := by
  unfold momentumBucket numericQualities
  rw [List.filter_filterMap, List.map_filterMap]
  congr 1
  funext r
  cases hd : r.date with
  | none => rfl
  | some d0 =>
    simp only [Option.some_bind]
    by_cases hdays : daysBetween race_date d0 ≤ 0
    · rw [if_pos hdays, if_neg (by omega)]
      rfl
    · rw [if_neg hdays, if_pos (by omega)]
      cases hnr : numericRank r.rank with
      | none => rfl
      | some n =>
        dsimp only
        by_cases hn : n ≤ 0
        · rw [if_pos hn, if_neg (show ¬ 0 < n by omega)]
          rfl
        · rw [if_neg hn, if_pos (show 0 < n by omega)]
          by_cases hwin : lo < daysBetween race_date d0 ∧ daysBetween race_date d0 ≤ hi
          · rw [if_pos hwin]
            simp [Option.filter, hwin]
          · rw [if_neg hwin]
            simp [Option.filter, hwin]

/-- Characterization of the strict-improvement fold of `optimize_weights`
over an arbitrary evaluated-candidate list: either no candidate beats the
incumbent score (and the accumulator survives), or the result is the
FIRST candidate attaining the maximal composite score. -/
theorem selectFold_spec (l : List (WeightMap × AggMetrics)) :
    ∀ (s0 : ℚ) (b0 : Option (WeightMap × AggMetrics)),
      (l.foldl (fun acc wm =>
          if compositeScore wm.2 > acc.1 then (compositeScore wm.2, some wm) else acc)
        (s0, b0) = (s0, b0)
        ∧ ∀ j : Nat, ∀ hj : j < l.length, compositeScore (l.get ⟨j, hj⟩).2 ≤ s0)
      ∨ (∃ i : Nat, ∃ hi : i < l.length,
          l.foldl (fun acc wm =>
            if compositeScore wm.2 > acc.1 then (compositeScore wm.2, some wm) else acc)
            (s0, b0)
            = (compositeScore (l.get ⟨i, hi⟩).2, some (l.get ⟨i, hi⟩))
          ∧ s0 < compositeScore (l.get ⟨i, hi⟩).2
          ∧ (∀ j : Nat, ∀ hj : j < l.length, j < i →
              compositeScore (l.get ⟨j, hj⟩).2 < compositeScore (l.get ⟨i, hi⟩).2)
          ∧ (∀ j : Nat, ∀ hj : j < l.length,
              compositeScore (l.get ⟨j, hj⟩).2 ≤ compositeScore (l.get ⟨i, hi⟩).2)) := by
  induction l with
  | nil => intro s0 b0; left; exact ⟨rfl, fun j hj => absurd hj (Nat.not_lt_zero j)⟩
  | cons x xs ih =>
    intro s0 b0
    rw [List.foldl_cons]
    by_cases hx : compositeScore x.2 > s0
    · rw [if_pos hx]
      rcases ih (compositeScore x.2) (some x) with ⟨heq, hall⟩ | ⟨i, hi, heq, hgt, hpre, hall⟩
      · right
        refine ⟨0, Nat.succ_pos _, ?_, hx, ?_, ?_⟩
        · simpa using heq
        · intro j hj hj0; omega
        · intro j hj
          cases j with
          | zero => exact le_refl _
          | succ k => exact hall k (Nat.lt_of_succ_lt_succ hj)
      · right
        refine ⟨i + 1, Nat.succ_lt_succ hi, ?_, lt_trans hx hgt, ?_, ?_⟩
        · simpa using heq
        · intro j hj hji
          cases j with
          | zero => exact hgt
          | succ k => exact hpre k (Nat.lt_of_succ_lt_succ hj) (Nat.lt_of_succ_lt_succ hji)
        · intro j hj
          cases j with
          | zero => exact le_of_lt hgt
          | succ k => exact hall k (Nat.lt_of_succ_lt_succ hj)
    · rw [if_neg hx]
      push_neg at hx
      rcases ih s0 b0 with ⟨heq, hall⟩ | ⟨i, hi, heq, hgt, hpre, hall⟩
      · left
        refine ⟨heq, ?_⟩
        intro j hj
        cases j with
        | zero => exact hx
        | succ k => exact hall k (Nat.lt_of_succ_lt_succ hj)
      · right
        refine ⟨i + 1, Nat.succ_lt_succ hi, ?_, hgt, ?_, ?_⟩
        · simpa using heq
        · intro j hj hji
          cases j with
          | zero => exact lt_of_le_of_lt hx hgt
          | succ k => exact hpre k (Nat.lt_of_succ_lt_succ hj) (Nat.lt_of_succ_lt_succ hji)
        · intro j hj
          cases j with
          | zero => exact le_of_lt (lt_of_le_of_lt hx hgt)
          | succ k => exact hall k (Nat.lt_of_succ_lt_succ hj)

/-- Folding `optimizeStep` over the raw candidate list is the same as
folding the strict-improvement step over the successfully evaluated
candidates. -/
theorem foldl_optimizeStep_eq (backtest : WeightMap → Option AggMetrics) :
    ∀ (cands : List WeightMap) (acc : ℚ × Option (WeightMap × AggMetrics)),
      cands.foldl (optimizeStep backtest) acc
        = (scoredCandidates backtest cands).foldl
            (fun acc wm =>
              if compositeScore wm.2 > acc.1 then (compositeScore wm.2, some wm) else acc)
            acc := by
  intro cands
  induction cands with
  | nil => intro acc; rfl
  | cons w ws ih =>
    intro acc
    rw [List.foldl_cons]
    cases hB : backtest w with
    | none =>
      rw [show optimizeStep backtest acc w = acc by simp [optimizeStep, hB]]
      rw [ih acc]
      congr 1
      simp [scoredCandidates, List.filterMap_cons, hB]
    | some m =>
      rw [show scoredCandidates backtest (w :: ws)
            = (w, m) :: scoredCandidates backtest ws by
          simp [scoredCandidates, List.filterMap_cons, hB]]
      rw [List.foldl_cons]
      rw [show optimizeStep backtest acc w
            = (if compositeScore m > acc.1 then (compositeScore m, some (w, m)) else acc) by
          simp [optimizeStep, hB]]
      exact ih _

/-- The descending score comparison is transitive. -/
theorem predLE_trans (a b c : Prediction) (h1 : predLE a b = true)
    (h2 : predLE b c = true) : predLE a c = true := by
  simp only [predLE, decide_eq_true_eq] at *
  exact le_trans h2 h1

/-- The descending score comparison is total. -/
theorem predLE_total (a b : Prediction) : (predLE a b || predLE b a) = true := by
  simp only [predLE, Bool.or_eq_true, decide_eq_true_eq]
  exact le_total b.score a.score

/-- Ranks assigned by the enumeration loop are exactly the enumerated
range. -/
theorem zipRank_map_rank :
    ∀ (l : List Prediction) (s : Nat),
      ((List.range' s l.length).zipWith (fun i p => { p with rank := i }) l).map
          Prediction.rank
        = List.range' s l.length := by
  intro l
  induction l with
  | nil => intro s; rfl
  | cons x xs ih =>
    intro s
    rw [List.length_cons, List.range'_succ, List.zipWith_cons_cons, List.map_cons, ih (s + 1)]

/-- Assigning ranks does not change scores. -/
theorem zipRank_map_score :
    ∀ (l : List Prediction) (s : Nat),
      ((List.range' s l.length).zipWith (fun i p => { p with rank := i }) l).map
          Prediction.score
        = l.map Prediction.score := by
  intro l
  induction l with
  | nil => intro s; rfl
  | cons x xs ih =>
    intro s
    rw [List.length_cons, List.range'_succ, List.zipWith_cons_cons, List.map_cons, ih (s + 1)]
    rfl

/-- Entry `i` of the rank-assignment loop output is entry `i` of the
input with rank `s + i`. -/
theorem zipRank_getElem? :
    ∀ (l : List Prediction) (s i : Nat),
      ((List.range' s l.length).zipWith (fun j p => { p with rank := j }) l)[i]?
        = (l[i]?).map fun p => { p with rank := s + i } := by
  intro l
  induction l with
  | nil => intro s i; simp
  | cons x xs ih =>
    intro s i
    rw [List.length_cons, List.range'_succ, List.zipWith_cons_cons]
    cases i with
    | zero => simp
    | succ k =>
      rw [List.getElem?_cons_succ, List.getElem?_cons_succ, ih (s + 1) k,
        show s + 1 + k = s + (k + 1) by omega]

/-- Length is preserved by rank assignment. -/
theorem assignRanks_length (l : List Prediction) : (assignRanks l).length = l.length := by
  unfold assignRanks
  rw [List.length_zipWith, List.length_range']
  exact Nat.min_self _

/-- A two-element sublist occurs at two increasing positions. -/
theorem pair_sublist_getElem {a b : Prediction} :
    ∀ (l : List Prediction), [a, b].Sublist l →
      ∃ i j : Nat, i < j ∧ l[i]? = some a ∧ l[j]? = some b := by
  intro l
  induction l with
  | nil => intro h; nomatch h
  | cons x xs ih =>
    intro h
    cases h with
    | cons _ h2 =>
      obtain ⟨i, j, hij, hi, hj⟩ := ih h2
      exact ⟨i + 1, j + 1, Nat.succ_lt_succ hij, by simpa using hi, by simpa using hj⟩
    | cons₂ _ h2 =>
      have hb : b ∈ xs := List.singleton_sublist.mp h2
      obtain ⟨n, hn⟩ := List.mem_iff_getElem?.mp hb
      exact ⟨0, n + 1, Nat.succ_pos n, by simp, by simpa using hn⟩

/-- The zero-floored maxima of the scorers are nonnegative. -/
theorem zero_le_max00 (x : ℚ) : (0 : ℚ) ≤ max 0.0 x :=
  le_trans (by norm_num) (le_max_left _ _)

/-- The clamp `max(0.0, min(1.0, x))` lands in the unit interval. -/
theorem clamp_inUnit (x : ℚ) : inUnit (max 0.0 (min 1.0 x)) := by
  constructor
  · exact zero_le_max00 _
  · apply max_le (by norm_num)
    calc min (1.0 : ℚ) x ≤ 1.0 := min_le_left _ _
      _ ≤ 1 := by norm_num

/-- A product of unit-interval factors is in the unit interval. -/
theorem prod_inUnit (l : List ℚ) (h : ∀ x ∈ l, inUnit x) : inUnit l.prod := by
  induction l with
  | nil => exact ⟨by norm_num, by norm_num⟩
  | cons x xs ih =>
    rw [List.prod_cons]
    have hx := h x (List.mem_cons_self _ _)
    have hxs := ih fun y hy => h y (List.mem_cons_of_mem _ hy)
    exact ⟨mul_nonneg hx.1 hxs.1, mul_le_one₀ hx.2 hxs.1 hxs.2⟩

/-- A running maximum starting in the unit interval over values `≤ 1`
stays in the unit interval. -/
theorem foldl_max_inUnit (l : List ℚ) :
    ∀ a : ℚ, inUnit a → (∀ x ∈ l, x ≤ 1) → inUnit (l.foldl max a) := by
  induction l with
  | nil => intro a ha _; exact ha
  | cons x xs ih =>
    intro a ha h
    rw [List.foldl_cons]
    exact ih _ ⟨le_trans ha.1 (le_max_left _ _),
        max_le ha.2 (h x (List.mem_cons_self _ _))⟩
      fun y hy => h y (List.mem_cons_of_mem _ hy)

/-- A probability blend of two unit-interval scores is in the unit
interval. -/
theorem blend_inUnit {s g p : ℚ} (hs : inUnit s) (hg : inUnit g)
    (hp0 : 0 ≤ p) (hp1 : p ≤ 1) : inUnit (s * p + g * (1.0 - p)) := by
  obtain ⟨hs0, hs1⟩ := hs
  obtain ⟨hg0, hg1⟩ := hg
  constructor
  · have h1 : 0 ≤ s * p := mul_nonneg hs0 hp0
    have h2 : 0 ≤ g * (1.0 - p) := mul_nonneg hg0 (by linarith)
    linarith
  · have h1 : s * p ≤ 1 * p := mul_le_mul_of_nonneg_right hs1 hp0
    have h2 : g * (1.0 - p) ≤ 1 * (1.0 - p) :=
      mul_le_mul_of_nonneg_right hg1 (by linarith)
    nlinarith

/-- Capping a nonnegative ratio at `1.0` lands in the unit interval. -/
theorem min_one_div_inUnit {a b : ℚ} (ha : 0 ≤ a) (hb : 0 < b) :
    inUnit (min 1.0 (a / b)) := by
  constructor
  · exact le_min (by norm_num) (div_nonneg ha hb.le)
  · calc min (1.0 : ℚ) (a / b) ≤ 1.0 := min_le_left _ _
      _ ≤ 1 := by norm_num

/-- Race-class weights are nonnegative. -/
theorem classWeight_nonneg (c : String) : 0 ≤ classWeight c := by
  unfold classWeight
  split_ifs <;> norm_num

/-- Result qualities with decay `0.05` are nonnegative. -/
theorem resultScore005_nonneg (rank : PRank) : 0 ≤ resultScore005 rank := by
  unfold resultScore005
  cases rank with
  | rnone => norm_num
  | rint n =>
    dsimp only
    split
    · exact zero_le_max00 _
    · norm_num
  | rstr s =>
    dsimp only
    cases hd : digitsVal s with
    | none => norm_num
    | some m => exact zero_le_max00 _

/-- Result qualities with decay `0.05` are at most `1` on ranks whose
digit-string form is positive. -/
theorem resultScore005_le_one (rank : PRank) (h : goodDigitRank rank = true) :
    resultScore005 rank ≤ 1 := by
  unfold resultScore005
  cases rank with
  | rnone => norm_num
  | rint n =>
    dsimp only
    by_cases hn : 0 < n
    · rw [if_pos hn]
      apply max_le (by norm_num)
      have h1 : (1 : ℚ) ≤ (n : ℚ) := by exact_mod_cast hn
      nlinarith
    · rw [if_neg hn]; norm_num
  | rstr s =>
    unfold goodDigitRank at h
    dsimp only
    cases hd : digitsVal s with
    | none => norm_num
    | some m =>
      dsimp only at h
      rw [hd] at h
      simp only [decide_eq_true_eq] at h
      apply max_le (by norm_num)
      have h1 : (1 : ℚ) ≤ (m : ℚ) := by exact_mod_cast h
      nlinarith

/-- Result qualities with decay `0.018` are nonnegative. -/
theorem resultScore0018_nonneg (rank : PRank) : 0 ≤ resultScore0018 rank := by
  unfold resultScore0018
  cases rank with
  | rnone => norm_num
  | rint n =>
    dsimp only
    split
    · exact zero_le_max00 _
    · norm_num
  | rstr s =>
    dsimp only
    cases hd : digitsVal s with
    | none => norm_num
    | some m => exact zero_le_max00 _

/-- Result qualities with decay `0.018` are at most `1` on ranks whose
digit-string form is positive. -/
theorem resultScore0018_le_one (rank : PRank) (h : goodDigitRank rank = true) :
    resultScore0018 rank ≤ 1 := by
  unfold resultScore0018
  cases rank with
  | rnone => norm_num
  | rint n =>
    dsimp only
    by_cases hn : 0 < n
    · rw [if_pos hn]
      apply max_le (by norm_num)
      have h1 : (1 : ℚ) ≤ (n : ℚ) := by exact_mod_cast hn
      nlinarith
    · rw [if_neg hn]; norm_num
  | rstr s =>
    unfold goodDigitRank at h
    dsimp only
    cases hd : digitsVal s with
    | none => norm_num
    | some m =>
      dsimp only at h
      rw [hd] at h
      simp only [decide_eq_true_eq] at h
      apply max_le (by norm_num)
      have h1 : (1 : ℚ) ≤ (m : ℚ) := by exact_mod_cast h
      nlinarith

/-- Members of a trailing window carry their source record and a
`days_ago` inside the window. -/
theorem mem_windowResults {p : ResultRecord × Int} {results : List ResultRecord}
    {race_date : PDate} {w : Int} (h : p ∈ windowResults results race_date w) :
    p.1 ∈ results ∧ 0 < p.2 ∧ p.2 ≤ w := by
  unfold windowResults at h
  obtain ⟨r, hr, hfr⟩ := List.mem_filterMap.mp h
  cases hd : r.date with
  | none => rw [hd] at hfr; cases hfr
  | some d0 =>
    rw [hd] at hfr
    simp only [Option.some_bind] at hfr
    by_cases hc : 0 < daysBetween race_date d0 ∧ daysBetween race_date d0 ≤ w
    · rw [if_pos hc] at hfr
      cases hfr
      exact ⟨hr, hc.1, hc.2⟩
    · rw [if_neg hc] at hfr
      cases hfr

/-- Members of the pedigree list carry their source record and a year in
the five-edition window. -/
theorem mem_pedigreeResults {p : ResultRecord × Int} {results : List ResultRecord}
    {race_base_url : String} {current_year : Int}
    (h : p ∈ pedigreeResults results race_base_url current_year) :
    p.1 ∈ results ∧ current_year - 5 ≤ p.2 ∧ p.2 < current_year := by
  unfold pedigreeResults at h
  obtain ⟨r, hr, hfr⟩ := List.mem_filterMap.mp h
  by_cases hs : strContains r.stage_url race_base_url
  · rw [if_neg (by simp [hs])] at hfr
    cases hd : r.date with
    | none => rw [hd] at hfr; cases hfr
    | some d0 =>
      rw [hd] at hfr
      simp only [Option.some_bind] at hfr
      by_cases hc : current_year - 5 ≤ (d0.y : Int) ∧ (d0.y : Int) < current_year
      · rw [if_pos hc] at hfr
        cases hfr
        exact ⟨hr, hc.1, hc.2⟩
      · rw [if_neg hc] at hfr
        cases hfr
  · rw [if_pos (by simp [hs])] at hfr
    cases hfr

/-- A successful previous-year rank score is in the unit interval. -/
theorem prevYearRankScore_inUnit {rank : PRank} {q : ℚ}
    (h : prevYearRankScore rank = some q) : inUnit q := by
  unfold prevYearRankScore at h
  cases hnr : numericRank rank with
  | none => rw [hnr] at h; cases h
  | some n =>
    rw [hnr] at h
    dsimp only at h
    by_cases hn : n ≤ 0
    · rw [if_pos hn] at h; cases h
    · rw [if_neg hn] at h
      cases h
      constructor
      · exact zero_le_max00 _
      · apply max_le (by norm_num)
        have h1 : (1 : ℚ) ≤ (n : ℚ) := by exact_mod_cast (by omega : (1 : Int) ≤ n)
        nlinarith

/-- Every entry of `_score_previous_year` carries a unit-interval rank
score. -/
theorem mem_prevYearEntries_inUnit {e : ℚ ⊕ ℚ} {results : List ResultRecord}
    {race_base_url : String} {terrain : TerrainType} {current_year : Int}
    (h : e ∈ prevYearEntries results race_base_url terrain current_year) :
    inUnit (Sum.elim id id e) := by
  unfold prevYearEntries at h
  obtain ⟨r, hr, hfr⟩ := List.mem_filterMap.mp h
  cases hd : r.date with
  | none => rw [hd] at hfr; cases hfr
  | some d0 =>
    rw [hd] at hfr
    simp only [Option.some_bind] at hfr
    by_cases hy : (d0.y : Int) ≠ current_year - 1
    · rw [if_pos hy] at hfr; cases hfr
    · rw [if_neg hy] at hfr
      cases hps : prevYearRankScore r.rank with
      | none => rw [hps] at hfr; cases hfr
      | some rank_score =>
        rw [hps] at hfr
        simp only [Option.some_bind] at hfr
        have hq := prevYearRankScore_inUnit hps
        by_cases h1 : strContains r.stage_url race_base_url
        · rw [if_pos h1] at hfr
          cases hfr
          exact hq
        · rw [if_neg h1] at hfr
          by_cases h2 : ((similarTerrainClassics terrain).any
              fun u => strContains r.stage_url u && u ≠ race_base_url) = true
          · rw [if_pos h2] at hfr
            cases hfr
            exact hq
          · rw [if_neg h2] at hfr
            cases hfr

/-- The probability and difficulty fields read from the race catalog (or
their fallback defaults) are in the unit interval. -/
theorem classicsMeta_prob_bounds (url : String) :
    inUnit (((classicsMeta url).map RaceMeta.sprint_finish_prob).getD 0.2)
    ∧ inUnit (((classicsMeta url).map RaceMeta.uphill_finish_prob).getD 0.2)
    ∧ inUnit (((classicsMeta url).map RaceMeta.cobble_difficulty).getD 0.0) := by
  cases hm : classicsMeta url with
  | none =>
    refine ⟨⟨?_, ?_⟩, ⟨?_, ?_⟩, ⟨?_, ?_⟩⟩ <;> norm_num
  | some m =>
    have hmem : (url, m) ∈ CLASSICS_METADATA := lookup_mem _ _ _ hm
    have hall : ∀ p ∈ CLASSICS_METADATA,
        (0 ≤ p.2.sprint_finish_prob ∧ p.2.sprint_finish_prob ≤ 1)
        ∧ (0 ≤ p.2.uphill_finish_prob ∧ p.2.uphill_finish_prob ≤ 1)
        ∧ (0 ≤ p.2.cobble_difficulty ∧ p.2.cobble_difficulty ≤ 1) := by
      with_unfolding_all decide
    have hb := hall _ hmem
    exact ⟨hb.1, hb.2.1, hb.2.2⟩

/-- Age-distance fit stays in the unit interval. -/
theorem score_age_distance_inUnit (K : MathKernel) (hK : KernelFacts K)
    (age : Option Int) (distance : ℚ) : inUnit (score_age_distance K age distance) := by
  unfold score_age_distance
  cases age with
  | none => exact ⟨by norm_num, by norm_num⟩
  | some a =>
    dsimp only
    have hsig : (0 : ℚ) < max 3.5 (5.5 - (distance - 180.0) * 0.012) :=
      lt_of_lt_of_le (by norm_num) (le_max_left _ _)
    have harg : -0.5 * (((a : ℚ) - (26.0 + (distance - 180.0) * 0.042))
        / max 3.5 (5.5 - (distance - 180.0) * 0.012)) ^ 2 ≤ 0 := by
      have hsq := sq_nonneg (((a : ℚ) - (26.0 + (distance - 180.0) * 0.042))
        / max 3.5 (5.5 - (distance - 180.0) * 0.012))
      nlinarith
    have hexp0 := hK.exp_nonneg _ harg
    have hexp1 := hK.exp_le_one _ harg
    split
    · have hp0 : (0 : ℚ) ≤ max 0.5 (min 1.0 (0.7 + ((a : ℚ) - 20) * 0.075)) :=
        le_trans (by norm_num) (le_max_left _ _)
      have hp1 : max 0.5 (min 1.0 (0.7 + ((a : ℚ) - 20) * 0.075)) ≤ 1 := by
        apply max_le (by norm_num)
        calc min (1.0 : ℚ) (0.7 + ((a : ℚ) - 20) * 0.075) ≤ 1.0 := min_le_left _ _
          _ ≤ 1 := by norm_num
      exact ⟨mul_nonneg hexp0 hp0, mul_le_one₀ hexp1 hp0 hp1⟩
    · exact ⟨hexp0, hexp1⟩

/-- Specialty score stays in the unit interval. -/
theorem score_specialty_inUnit (K : MathKernel) (hK : KernelFacts K)
    (profile : Profile) : inUnit (score_specialty K profile) := by
  unfold score_specialty
  dsimp only
  split
  next => exact ⟨by norm_num, by norm_num⟩
  next h =>
    exact min_one_div_inUnit (hK.log1p_nonneg _ (le_of_lt (not_le.mp h)))
      (hK.log1p_pos _ (by norm_num))

/-- Team strength stays in the unit interval. -/
theorem score_team_strength_inUnit (rider_data : RiderData) :
    inUnit (score_team_strength rider_data) := by
  unfold score_team_strength
  cases rider_data.team with
  | none => exact ⟨by norm_num, by norm_num⟩
  | some t =>
    dsimp only
    split_ifs <;> exact ⟨by norm_num, by norm_num⟩

/-- Momentum stays in the unit interval. -/
theorem score_momentum_inUnit (results : List ResultRecord) (race_date : PDate) :
    inUnit (score_momentum results race_date) := by
  unfold score_momentum
  dsimp only
  split
  · exact ⟨by norm_num, by norm_num⟩
  · exact clamp_inUnit _

/-- Sprint capability stays in the unit interval. -/
theorem score_sprint_capability_inUnit (K : MathKernel) (hK : KernelFacts K)
    (profile : Profile) (race_meta : Option RaceMeta)
    (hp : inUnit ((race_meta.map RaceMeta.sprint_finish_prob).getD 0.2)) :
    inUnit (score_sprint_capability K profile race_meta) := by
  unfold score_sprint_capability
  dsimp only
  apply blend_inUnit _ _ hp.1 hp.2
  · split
    next h =>
      exact min_one_div_inUnit (hK.log1p_nonneg _ h.le) (hK.log1p_pos _ (by norm_num))
    next => exact ⟨by norm_num, by norm_num⟩
  · split
    next h =>
      exact min_one_div_inUnit (hK.log1p_nonneg _ h.le) (hK.log1p_pos _ (by norm_num))
    next => exact ⟨by norm_num, by norm_num⟩

/-- Uphill-sprint capability stays in the unit interval. -/
theorem score_uphill_sprint_inUnit (K : MathKernel) (hK : KernelFacts K)
    (profile : Profile) (race_meta : Option RaceMeta)
    (hp : inUnit ((race_meta.map RaceMeta.uphill_finish_prob).getD 0.2)) :
    inUnit (score_uphill_sprint K profile race_meta) := by
  unfold score_uphill_sprint
  dsimp only
  apply blend_inUnit _ _ hp.1 hp.2
  · split
    next => exact ⟨by norm_num, by norm_num⟩
    next h =>
      exact min_one_div_inUnit (hK.log1p_nonneg _ (le_of_lt (not_le.mp h)))
        (hK.log1p_pos _ (by norm_num))
  · split
    next h =>
      exact min_one_div_inUnit (hK.log1p_nonneg _ h.le) (hK.log1p_pos _ (by norm_num))
    next => exact ⟨by norm_num, by norm_num⟩

/-- Cobblestone capability stays in the unit interval. -/
theorem score_cobble_capability_inUnit (K : MathKernel) (hK : KernelFacts K)
    (profile : Profile) (race_meta : Option RaceMeta)
    (hp : inUnit ((race_meta.map RaceMeta.cobble_difficulty).getD 0.0)) :
    inUnit (score_cobble_capability K profile race_meta) := by
  unfold score_cobble_capability
  dsimp only
  apply blend_inUnit _ _ hp.1 hp.2
  · split
    next => exact ⟨by norm_num, by norm_num⟩
    next h =>
      exact min_one_div_inUnit (hK.log1p_nonneg _ (le_of_lt (not_le.mp h)))
        (hK.log1p_pos _ (by norm_num))
  · split
    next h =>
      exact min_one_div_inUnit (hK.log1p_nonneg _ h.le) (hK.log1p_pos _ (by norm_num))
    next => exact ⟨by norm_num, by norm_num⟩

/-- Terrain match stays in the unit interval. -/
theorem score_terrain_match_inUnit (K : MathKernel) (hK : KernelFacts K)
    (profile : Profile) (terrain : TerrainType) (race_meta : Option RaceMeta) :
    inUnit (score_terrain_match K profile terrain race_meta) := by
  unfold score_terrain_match
  cases terrain <;>
    · dsimp only
      split
      next => exact ⟨by norm_num, by norm_num⟩
      next h =>
        exact min_one_div_inUnit (hK.log1p_nonneg _ (le_of_lt (not_le.mp h)))
          (hK.log1p_pos _ (by norm_num))

/-- Recent form stays in the unit interval when digit-string ranks are
positive. -/
theorem score_recent_form_inUnit (results : List ResultRecord) (race_date : PDate)
    (hr : ∀ r ∈ results, goodDigitRank r.rank = true) :
    inUnit (score_recent_form results race_date) := by
  unfold score_recent_form
  dsimp only
  split
  · exact ⟨by norm_num, by norm_num⟩
  · split
    next htw =>
      apply weighted_ratio_inUnit (windowResults results race_date 90)
        recentFormWeight (fun p => resultScore005 p.1.rank) ?_ ?_ ?_ htw
      · intro p hp
        obtain ⟨-, -, hd2⟩ := mem_windowResults hp
        unfold recentFormWeight
        apply mul_nonneg _ (classWeight_nonneg _)
        have hq : ((p.2 : ℚ)) / 90 ≤ 1 := by
          rw [div_le_one (by norm_num)]
          exact_mod_cast hd2
        nlinarith
      · intro p hp
        exact resultScore005_nonneg _
      · intro p hp
        exact resultScore005_le_one _ (hr _ (mem_windowResults hp).1)
    · exact ⟨by norm_num, by norm_num⟩

/-- Classic pedigree stays in the unit interval when digit-string ranks
are positive. -/
theorem score_classic_pedigree_inUnit (results : List ResultRecord)
    (race_base_url : String) (current_year : Int)
    (hr : ∀ r ∈ results, goodDigitRank r.rank = true) :
    inUnit (score_classic_pedigree results race_base_url current_year) := by
  unfold score_classic_pedigree
  dsimp only
  split
  · exact ⟨by norm_num, by norm_num⟩
  · split
    next htw =>
      apply weighted_ratio_inUnit (pedigreeResults results race_base_url current_year)
        (pedigreeWeight current_year) (fun p => resultScore0018 p.1.rank) ?_ ?_ ?_ htw
      · intro p hp
        obtain ⟨-, -, h2⟩ := mem_pedigreeResults hp
        unfold pedigreeWeight
        apply div_nonneg (by norm_num)
        have hge : (1 : ℚ) ≤ ((current_year - p.2 : Int) : ℚ) := by
          exact_mod_cast (by omega : (1 : Int) ≤ current_year - p.2)
        nlinarith
      · intro p hp
        exact resultScore0018_nonneg _
      · intro p hp
        exact resultScore0018_le_one _ (hr _ (mem_pedigreeResults hp).1)
    · exact ⟨by norm_num, by norm_num⟩

/-- The previous-year combination of a running maximum and an average of
unit-interval entries is in the unit interval. -/
theorem prevYear_combine_inUnit (entries : List (ℚ ⊕ ℚ))
    (hval : ∀ e ∈ entries, inUnit (Sum.elim id id e)) :
    inUnit ((entries.filterMap fun e =>
        match e with | .inl q => some q | .inr _ => none).foldl max 0.0 * 0.6
      + (if (entries.filterMap fun e =>
            match e with | .inl _ => none | .inr q => some q) = [] then 0.0
         else (entries.filterMap fun e =>
            match e with | .inl _ => none | .inr q => some q).sum
           / ((entries.filterMap fun e =>
            match e with | .inl _ => none | .inr q => some q).length : ℚ)) * 0.4) := by
  have hsame : inUnit ((entries.filterMap fun e =>
      match e with | .inl q => some q | .inr _ => none).foldl max 0.0) := by
    apply foldl_max_inUnit _ _ ⟨by norm_num, by norm_num⟩
    intro x hx
    obtain ⟨e, he, hfe⟩ := List.mem_filterMap.mp hx
    cases e with
    | inl q =>
      dsimp only at hfe
      cases hfe
      exact (hval _ he).2
    | inr q => dsimp only at hfe; cases hfe
  have hsim : inUnit (if (entries.filterMap fun e =>
        match e with | .inl _ => none | .inr q => some q) = [] then 0.0
      else (entries.filterMap fun e =>
        match e with | .inl _ => none | .inr q => some q).sum
        / ((entries.filterMap fun e =>
        match e with | .inl _ => none | .inr q => some q).length : ℚ)) := by
    split
    · exact ⟨by norm_num, by norm_num⟩
    · apply mean_inUnit <;>
        · intro x hx
          obtain ⟨e, he, hfe⟩ := List.mem_filterMap.mp hx
          cases e with
          | inl q => dsimp only at hfe; cases hfe
          | inr q =>
            dsimp only at hfe
            cases hfe
            first
              | exact (hval _ he).1
              | exact (hval _ he).2
  constructor
  · nlinarith [hsame.1, hsame.2, hsim.1, hsim.2]
  · nlinarith [hsame.1, hsame.2, hsim.1, hsim.2]

/-- Previous-year score stays in the unit interval. -/
theorem score_previous_year_inUnit (results : List ResultRecord)
    (race_base_url : String) (terrain : TerrainType) (current_year : Int) :
    inUnit (score_previous_year results race_base_url terrain current_year) := by
  unfold score_previous_year
  dsimp only
  exact prevYear_combine_inUnit _ fun e he => mem_prevYearEntries_inUnit he

/-- The three-branch preparation formula is in the unit interval for any
band with a positive lower bound. -/
theorem prep_branches_inUnit (rdn : Nat) (L H : Int) (hL : 10 ≤ L) :
    inUnit (if L ≤ (rdn : Int) ∧ (rdn : Int) ≤ H then 1.0
      else if (rdn : Int) < L then max 0.1 ((rdn : ℚ) / (L : ℚ))
      else max 0.3 (1.0 - (((rdn : Int) - H : Int) : ℚ) * 0.02)) := by
  have hLq : (0 : ℚ) < (L : ℚ) := by exact_mod_cast (by omega : (0 : Int) < L)
  split_ifs with h1 h2
  · exact ⟨by norm_num, by norm_num⟩
  · constructor
    · exact le_trans (by norm_num) (le_max_left _ _)
    · apply max_le (by norm_num)
      rw [div_le_one hLq]
      have : ((rdn : Int) : ℚ) ≤ (L : ℚ) := by
        exact_mod_cast le_of_lt h2
      exact_mod_cast this
  · constructor
    · exact le_trans (by norm_num) (le_max_left _ _)
    · apply max_le (by norm_num)
      have he : (1 : ℚ) ≤ (((rdn : Int) - H : Int) : ℚ) := by
        exact_mod_cast (by omega : (1 : Int) ≤ (rdn : Int) - H)
      nlinarith

/-- Preparation score stays in the unit interval. -/
theorem score_preparation_inUnit (results : List ResultRecord) (race_date : PDate) :
    inUnit (score_preparation results race_date) := by
  unfold score_preparation
  dsimp only
  exact prep_branches_inUnit _ _ _ (le_max_left _ _)

/-- A `0.3`-floored product of three unit-interval penalties is in the
unit interval. -/
theorem max03_prod_inUnit {p1 p2 p3 : ℚ} (h1 : inUnit p1) (h2 : inUnit p2)
    (h3 : inUnit p3) : inUnit (max 0.3 (p1 * p2 * p3)) := by
  have h12 : inUnit (p1 * p2) := ⟨mul_nonneg h1.1 h2.1, mul_le_one₀ h1.2 h2.1 h2.2⟩
  constructor
  · exact le_trans (by norm_num) (le_max_left _ _)
  · exact max_le (by norm_num) (mul_le_one₀ h12.2 h3.1 h3.2)

/-- Injury indicator stays in the unit interval. -/
theorem score_injury_inUnit (results : List ResultRecord) (race_date : PDate) :
    inUnit (score_injury results race_date) := by
  unfold score_injury
  split
  · exact ⟨by norm_num, by norm_num⟩
  next first rest heq =>
    dsimp only
    apply max03_prod_inUnit
    · split
      next hlate =>
        constructor
        · exact le_trans (by norm_num) (le_max_left _ _)
        · apply max_le (by norm_num)
          have hd : (1 : ℚ) ≤ ((daysBetween first.1 ⟨race_date.y, 1, 25⟩ : Int) : ℚ) := by
            exact_mod_cast (show (1 : Int) ≤ daysBetween first.1 ⟨race_date.y, 1, 25⟩ by
              unfold daysBetween
              omega)
          nlinarith
      next => exact ⟨by norm_num, by norm_num⟩
    · apply prod_inUnit
      intro x hx
      obtain ⟨g, hg, hfg⟩ := List.mem_map.mp hx
      cases hfg
      split
      next hgap =>
        constructor
        · exact le_trans (by norm_num) (le_max_left _ _)
        · apply max_le (by norm_num)
          have hd : (1 : ℚ) ≤ ((g - 28 : Int) : ℚ) := by
            exact_mod_cast (by omega : (1 : Int) ≤ g - 28)
          nlinarith
      next => exact ⟨by norm_num, by norm_num⟩
    · split
      next hcnt =>
        constructor
        · exact le_trans (by norm_num) (le_max_left _ _)
        · apply max_le (by norm_num)
          have hd : (0 : ℚ) ≤ ((first :: rest).countP fun p =>
              decide (race_date.toDays - 30 ≤ p.1.toDays) && isDNFRank p.2.rank : ℚ) :=
            Nat.cast_nonneg _
          nlinarith
      next => exact ⟨by norm_num, by norm_num⟩

/-!
Claim theorems.
-/

/-- C1: every prediction list produced by the predictor carries ranks
that are exactly the contiguous integers `1..N` in order, and its rounded
composite scores are non-increasing along that order. -/
theorem predict_ranks_contiguous_scores_descending (K : MathKernel)
    (weights : WeightMap) (race_base_url : String) (year : Int) (distance : ℚ)
    (race_date : PDate) (startlist : List StartEntry)
    (rider_data : List (String × RiderData)) :
    (predict_from_data K weights race_base_url year distance race_date
        startlist rider_data).map Prediction.rank
      = List.range' 1 (predict_from_data K weights race_base_url year distance
          race_date startlist rider_data).length
    ∧ ((predict_from_data K weights race_base_url year distance race_date
        startlist rider_data).map Prediction.score).Pairwise (· ≥ ·) := by
  unfold predict_from_data
  constructor
  · rw [assignRanks_length]
    unfold assignRanks
    exact zipRank_map_rank _ 1
  · unfold assignRanks
    rw [zipRank_map_score]
    have hs := List.sorted_mergeSort predLE_trans predLE_total
      (predictUnsorted K weights race_base_url year distance race_date
        startlist rider_data)
    exact hs.map Prediction.score fun a b hab => by
      simpa [predLE] using hab

/-- C2: two startlist entries that receive equal rounded scores appear in
the ranked output in their original input order, the earlier one with the
strictly smaller rank. -/
theorem predict_equal_scores_keep_input_order (K : MathKernel)
    (weights : WeightMap) (race_base_url : String) (year : Int) (distance : ℚ)
    (race_date : PDate) (startlist : List StartEntry)
    (rider_data : List (String × RiderData)) (a b : Prediction)
    (hsub : [a, b].Sublist (predictUnsorted K weights race_base_url year
      distance race_date startlist rider_data))
    (heq : a.score = b.score) :
    ∃ i j : Nat, i < j
      ∧ (predict_from_data K weights race_base_url year distance race_date
          startlist rider_data)[i]? = some { a with rank := i + 1 }
      ∧ (predict_from_data K weights race_base_url year distance race_date
          startlist rider_data)[j]? = some { b with rank := j + 1 } := by
  have hab : predLE a b = true := by
    simp only [predLE, decide_eq_true_eq]
    exact le_of_eq heq.symm
  have hsorted := List.pair_sublist_mergeSort predLE_trans predLE_total hab hsub
  obtain ⟨i, j, hij, hi, hj⟩ := pair_sublist_getElem _ hsorted
  refine ⟨i, j, hij, ?_, ?_⟩
  · unfold predict_from_data assignRanks
    rw [zipRank_getElem?, hi, Nat.add_comm 1 i]
    rfl
  · unfold predict_from_data assignRanks
    rw [zipRank_getElem?, hj, Nat.add_comm 1 j]
    rfl

/-- C4 counterexample: the empty raw weight mapping is accepted by the
constructor (no entry is divided, so no `ZeroDivisionError` either) and
is stored with weight sum `0`, not `1`. -/
theorem normalize_empty_weights_counterexample :
    ((predictorWeights (some [])).map (·.2)).sum ≠ 1 := by
  with_unfolding_all decide

/-- C4 (amended): for every raw weight mapping whose raw value sum is
nonzero, the stored weights after construction sum to exactly `1` (the
prediction path then reads these stored weights unchanged). -/
theorem normalized_weights_sum_one (raw : WeightMap)
    (h : (raw.map (·.2)).sum ≠ 0) :
    ((predictorWeights (some raw)).map (·.2)).sum = 1 := by
  unfold predictorWeights normalizeWeights
  rw [Option.getD_some, List.map_map]
  rw [show ((fun kv : String × ℚ => kv.2)
      ∘ fun kv : String × ℚ => (kv.1, kv.2 / (raw.map (·.2)).sum))
      = fun kv : String × ℚ => kv.2 / (raw.map (·.2)).sum from rfl]
  rw [list_sum_map_div, div_self h]

/-- C4 witness: the default weight table normalizes to sum `1`. -/
theorem normalized_weights_sum_one_witness :
    ((predictorWeights (some DEFAULT_WEIGHTS)).map (·.2)).sum = 1 :=
  normalized_weights_sum_one DEFAULT_WEIGHTS (by with_unfolding_all decide)

/-- C5 counterexample: a single win dated 45 days before the race falls
within 60 days, yet the code returns the `0.3` sentinel while the claim's
formula yields `0` — the sentinel fires whenever the last-30-days bucket
is empty, not only when no result lies within 60 days. -/
theorem momentum_sentinel_counterexample :
    score_momentum [{ date := some ⟨2025, 2, 1⟩, rank := .rint 1 }] ⟨2025, 3, 18⟩
      ≠ momentumClaimC5 [{ date := some ⟨2025, 2, 1⟩, rank := .rint 1 }] ⟨2025, 3, 18⟩ := by
  with_unfolding_all decide

/-- C5 (amended): the momentum score equals the claim's bucket formula
with the sentinel condition corrected to "no numeric-rank result within
the last 30 days". -/
theorem momentum_matches_spec_formula (results : List ResultRecord)
    (race_date : PDate) :
    score_momentum results race_date = momentumSpec results race_date := by
  unfold score_momentum momentumSpec
  dsimp only
  rw [← momentumBucket_eq results race_date 0 30,
    ← momentumBucket_eq results race_date 30 60]
  split
  · rfl
  · rw [List.countP_eq_length_filter]
    split
    · ring_nf
    · ring_nf

/-- C6 counterexample: a record with the malformed rank `"abc"` (neither
a positive integer nor a non-finish code) and a valid in-window date is
NOT skipped by the recent-form scorer — it contributes a zero-quality
entry that changes the weighted mean. -/
theorem malformed_rank_not_skipped_counterexample :
    rankMalformedB (PRank.rstr "abc") = true
    ∧ score_recent_form
        [{ date := some ⟨2025, 3, 8⟩, rank := .rstr "abc" },
         { date := some ⟨2025, 3, 8⟩, rank := .rint 1, race_class := "1.UWT" }]
        ⟨2025, 3, 18⟩
      ≠ score_recent_form
        [{ date := some ⟨2025, 3, 8⟩, rank := .rint 1, race_class := "1.UWT" }]
        ⟨2025, 3, 18⟩ := by
  constructor
  · with_unfolding_all decide
  · with_unfolding_all decide

/-- C6 (amended): a record with a missing/unparseable date is skipped by
every result-consuming feature function, and a record with a malformed
rank is skipped by the previous-year and momentum scorers (recent form
and pedigree instead score it as a zero-quality finish, and preparation
and injury count it as a race day); no branch can raise. -/
theorem malformed_records_handling (race_base_url : String)
    (terrain : TerrainType) (current_year : Int) (race_date : PDate)
    (l1 l2 : List ResultRecord) (r : ResultRecord) :
    (r.date = none →
      score_recent_form (l1 ++ r :: l2) race_date
          = score_recent_form (l1 ++ l2) race_date
      ∧ score_classic_pedigree (l1 ++ r :: l2) race_base_url current_year
          = score_classic_pedigree (l1 ++ l2) race_base_url current_year
      ∧ score_previous_year (l1 ++ r :: l2) race_base_url terrain current_year
          = score_previous_year (l1 ++ l2) race_base_url terrain current_year
      ∧ score_preparation (l1 ++ r :: l2) race_date
          = score_preparation (l1 ++ l2) race_date
      ∧ score_injury (l1 ++ r :: l2) race_date
          = score_injury (l1 ++ l2) race_date
      ∧ score_momentum (l1 ++ r :: l2) race_date
          = score_momentum (l1 ++ l2) race_date)
    ∧ (rankMalformedB r.rank = true →
      score_previous_year (l1 ++ r :: l2) race_base_url terrain current_year
          = score_previous_year (l1 ++ l2) race_base_url terrain current_year
      ∧ score_momentum (l1 ++ r :: l2) race_date
          = score_momentum (l1 ++ l2) race_date) := by
  constructor
  · intro hd
    have hdd : ∀ d0 : PDate, r.date = some d0 → False := by
      intro d0 h0
      rw [hd] at h0
      cases h0
    refine ⟨?_, ?_, ?_, ?_, ?_, ?_⟩
    · unfold score_recent_form
      rw [windowResults_skip l1 l2 r race_date 90 fun d0 h0 => absurd h0 (by simp [hd])]
    · unfold score_classic_pedigree
      rw [pedigreeResults_skip l1 l2 r race_base_url current_year hd]
    · unfold score_previous_year
      rw [prevYearEntries_skip l1 l2 r race_base_url terrain current_year (Or.inl hd)]
    · unfold score_preparation
      rw [seasonResults_skip l1 l2 r race_date hd]
    · unfold score_injury
      rw [seasonResults_skip l1 l2 r race_date hd]
    · unfold score_momentum
      rw [momentumBucket_skip l1 l2 r race_date 0 30 (Or.inl fun d0 h0 => absurd h0 (by simp [hd])),
        momentumBucket_skip l1 l2 r race_date 30 60 (Or.inl fun d0 h0 => absurd h0 (by simp [hd]))]
  · intro hm
    have hnum := rankMalformedB_numeric r.rank hm
    constructor
    · unfold score_previous_year
      rw [prevYearEntries_skip l1 l2 r race_base_url terrain current_year
        (Or.inr (prevYearRankScore_none r.rank hnum))]
    · unfold score_momentum
      rw [momentumBucket_skip l1 l2 r race_date 0 30 (Or.inr hnum),
        momentumBucket_skip l1 l2 r race_date 30 60 (Or.inr hnum)]

/-- C6 witness: a date-malformed record and a rank-malformed record are
skipped as described, at concrete inputs. -/
theorem malformed_records_handling_witness :
    (score_momentum
        [{ date := none, rank := .rint 3 },
         { date := some ⟨2025, 3, 8⟩, rank := .rint 1 }] ⟨2025, 3, 18⟩
      = score_momentum [{ date := some ⟨2025, 3, 8⟩, rank := .rint 1 }] ⟨2025, 3, 18⟩)
    ∧ (score_previous_year
        [{ date := some ⟨2024, 4, 7⟩, rank := .rstr "abc",
           stage_url := "race/paris-roubaix/2024" },
         { date := some ⟨2024, 4, 7⟩, rank := .rint 2,
           stage_url := "race/paris-roubaix/2024" }] "race/paris-roubaix" .cobbles 2025
      = score_previous_year
        [{ date := some ⟨2024, 4, 7⟩, rank := .rint 2,
           stage_url := "race/paris-roubaix/2024" }] "race/paris-roubaix" .cobbles 2025) := by
  constructor
  · exact ((malformed_records_handling "race/paris-roubaix" .cobbles 2025 ⟨2025, 3, 18⟩
      [] [{ date := some ⟨2025, 3, 8⟩, rank := .rint 1 }]
      { date := none, rank := .rint 3 }).1 rfl).2.2.2.2.2
  · exact ((malformed_records_handling "race/paris-roubaix" .cobbles 2025 ⟨2025, 3, 18⟩
      [] [{ date := some ⟨2024, 4, 7⟩, rank := .rint 2,
            stage_url := "race/paris-roubaix/2024" }]
      { date := some ⟨2024, 4, 7⟩, rank := .rstr "abc",
        stage_url := "race/paris-roubaix/2024" }).2 (by with_unfolding_all decide)).1

/-- C7 counterexample: a result whose rank is the digit string `"0"`
drives the recent-form feature to `1.05`, outside `[0, 1]` — the
digit-string branch of the quality formula lacks the positivity check of
the integer branch. -/
theorem features_in_unit_counterexample :
    ¬ (compute_features unitKernel
        { results := [{ date := some ⟨2025, 3, 8⟩, rank := .rstr "0" }] }
        "race/paris-roubaix" .cobbles 260 ⟨2025, 3, 18⟩ 2025).allInUnit := by
  unfold Features.allInUnit
  with_unfolding_all decide

/-- C7 (amended): all thirteen feature scores lie in `[0, 1]` for every
athlete record whose digit-string ranks are positive and every race
context, given the analytic facts of `exp`/`log1p`. -/
theorem features_all_in_unit (K : MathKernel) (hK : KernelFacts K)
    (rider_data : RiderData)
    (hr : ∀ r ∈ rider_data.results, goodDigitRank r.rank = true)
    (race_base_url : String) (terrain : TerrainType) (distance : ℚ)
    (race_date : PDate) (year : Int) :
    (compute_features K rider_data race_base_url terrain distance race_date
      year).allInUnit := by
  obtain ⟨hp1, hp2, hp3⟩ := classicsMeta_prob_bounds race_base_url
  unfold compute_features Features.allInUnit
  dsimp only
  refine ⟨?_, ?_, ?_, ?_, ?_, ?_, ?_, ?_, ?_, ?_, ?_, ?_, ?_⟩
  · exact score_age_distance_inUnit K hK _ _
  · exact score_recent_form_inUnit _ _ hr
  · exact score_classic_pedigree_inUnit _ _ _ hr
  · exact score_specialty_inUnit K hK _
  · exact score_previous_year_inUnit _ _ _ _
  · exact score_preparation_inUnit _ _
  · exact score_injury_inUnit _ _
  · exact score_terrain_match_inUnit K hK _ _ _
  · exact score_sprint_capability_inUnit K hK _ _ hp1
  · exact score_uphill_sprint_inUnit K hK _ _ hp2
  · exact score_cobble_capability_inUnit K hK _ _ hp3
  · exact score_momentum_inUnit _ _
  · exact score_team_strength_inUnit _

/-- C7 witness: the amended range invariant at a concrete rider with a
win, a digit-string rank and a non-finish on record. -/
theorem features_all_in_unit_witness :
    (compute_features unitKernel
      { profile := { birthdate := some ⟨1998, 9, 21⟩,
                     points_per_speciality := { one_day_races := 3000 } },
        results := [{ date := some ⟨2025, 3, 8⟩, rank := .rint 1, race_class := "1.UWT" },
                    { date := some ⟨2025, 2, 1⟩, rank := .rstr "12" },
                    { date := some ⟨2025, 1, 20⟩, rank := .rstr "DNF" }],
        team := some "lidl-trek" }
      "race/paris-roubaix" .cobbles 260 ⟨2025, 4, 13⟩ 2025).allInUnit :=
  features_all_in_unit unitKernel unitKernel_facts _ (by decide)
    "race/paris-roubaix" .cobbles 260 ⟨2025, 4, 13⟩ 2025

/-- C8: with an all-unknown actual list the backtest scorer returns all
zero hit rates and the rank-error placeholder `20`; the placeholder also
appears whenever no athlete occurs in both the prediction and the first
ten known actual finishers. -/
theorem backtest_degenerate_defaults (predictions : List Prediction)
    (actual_top10 : List (Option String)) :
    ((∀ x ∈ actual_top10, x = none) →
      score_predictions predictions actual_top10 = ⟨0, 0, 0, 0, 20⟩)
    ∧ ((∀ u ∈ (actual_top10.filterMap id).take 10,
          u ∉ predictions.map Prediction.rider_url) →
      (score_predictions predictions actual_top10).avg_rank_error = 20) := by
  constructor
  · intro h
    have hnil : actual_top10.filterMap id = [] := by
      rw [List.filterMap_eq_nil_iff]
      intro a ha
      rw [h a ha]
      rfl
    unfold score_predictions
    rw [hnil, if_pos rfl]
  · intro h
    unfold score_predictions
    by_cases hk : actual_top10.filterMap id = []
    · rw [hk, if_pos rfl]
    · rw [if_neg hk]
      dsimp only
      have herr : (((actual_top10.filterMap id).take 10).enum.filterMap fun iu =>
          if iu.2 ∈ predictions.map Prediction.rider_url then
            some (((((iu.1 + 1 : Int)
              - ((predictions.map Prediction.rider_url).indexOf iu.2 + 1 : Int)).natAbs : ℚ)))
          else none) = [] := by
        rw [List.filterMap_eq_nil_iff]
        intro iu hiu
        have hmem : iu.2 ∈ (actual_top10.filterMap id).take 10 := by
          have := List.mem_enum_iff_getElem?.mp hiu
          exact List.getElem?_mem this
        rw [if_neg (h iu.2 hmem)]
      rw [herr, if_pos rfl]

/-- C8 witness: concrete degenerate inputs. -/
theorem backtest_degenerate_defaults_witness :
    (score_predictions [] [none, none] = ⟨0, 0, 0, 0, 20⟩)
    ∧ (score_predictions [] [some "rider/a"]).avg_rank_error = 20 := by
  constructor
  · exact (backtest_degenerate_defaults [] [none, none]).1 (by decide)
  · exact (backtest_degenerate_defaults [] [some "rider/a"]).2
      (by intro u hu; simp)

/-- C9: the grid search keeps the first candidate, in enumeration order,
attaining the maximal composite score (later candidates replace the
incumbent only on strict improvement), and it returns the explicit
no-result signal when the configuration prunes every candidate or no
candidate evaluates. -/
theorem optimize_weights_first_strict_max
    (backtest : WeightMap → Option AggMetrics) :
    (∀ w m, optimize_weights backtest = some (w, m) →
      backtest w = some m
      ∧ ∃ i : Nat, ∃ hi : i < (scoredCandidates backtest (gridCandidates cpSteps
            tmSteps ssSteps pySteps prepSteps spSteps)).length,
          (scoredCandidates backtest (gridCandidates cpSteps tmSteps ssSteps
            pySteps prepSteps spSteps)).get ⟨i, hi⟩ = (w, m)
          ∧ (∀ j : Nat, ∀ hj : j < (scoredCandidates backtest (gridCandidates
                cpSteps tmSteps ssSteps pySteps prepSteps spSteps)).length,
              j < i →
              compositeScore ((scoredCandidates backtest (gridCandidates cpSteps
                tmSteps ssSteps pySteps prepSteps spSteps)).get ⟨j, hj⟩).2
                < compositeScore m)
          ∧ (∀ j : Nat, ∀ hj : j < (scoredCandidates backtest (gridCandidates
                cpSteps tmSteps ssSteps pySteps prepSteps spSteps)).length,
              compositeScore ((scoredCandidates backtest (gridCandidates cpSteps
                tmSteps ssSteps pySteps prepSteps spSteps)).get ⟨j, hj⟩).2
                ≤ compositeScore m))
    ∧ (∀ cps tms sss pys preps sps : List ℚ,
        ∀ B2 : WeightMap → Option AggMetrics,
        gridCandidates cps tms sss pys preps sps = [] →
        optimizeWeightsWith cps tms sss pys preps sps B2 = none)
    ∧ ((∀ w, backtest w = none) → optimize_weights backtest = none) := by
  refine ⟨?_, ?_, ?_⟩
  · intro w m hres
    unfold optimize_weights optimizeWeightsWith at hres
    rw [foldl_optimizeStep_eq] at hres
    rcases selectFold_spec (scoredCandidates backtest (gridCandidates cpSteps
        tmSteps ssSteps pySteps prepSteps spSteps)) (-1) none with
      ⟨heq2, -⟩ | ⟨i, hi, heq2, -, hpre, hall⟩
    · rw [heq2] at hres
      cases hres
    · rw [heq2] at hres
      dsimp only at hres
      injection hres with hres2
      have hcomp : compositeScore ((scoredCandidates backtest (gridCandidates
          cpSteps tmSteps ssSteps pySteps prepSteps spSteps)).get ⟨i, hi⟩).2
          = compositeScore m := by rw [hres2]
      constructor
      · have hmem := List.get_mem (scoredCandidates backtest (gridCandidates
          cpSteps tmSteps ssSteps pySteps prepSteps spSteps)) i hi
        rw [hres2] at hmem
        unfold scoredCandidates at hmem
        obtain ⟨cand, -, hc⟩ := List.mem_filterMap.mp hmem
        obtain ⟨m2, hb, hpair⟩ := Option.map_eq_some'.mp hc
        injection hpair with hcw hm2
        rw [← hcw, hb, hm2]
      · exact ⟨i, hi, hres2, fun j hj hji => hcomp ▸ hpre j hj hji,
          fun j hj => hcomp ▸ hall j hj⟩
  · intro cps tms sss pys preps sps B2 hempty
    unfold optimizeWeightsWith
    rw [hempty]
    rfl
  · intro hB
    unfold optimize_weights optimizeWeightsWith
    rw [foldl_optimizeStep_eq]
    rw [show scoredCandidates backtest (gridCandidates cpSteps tmSteps ssSteps
        pySteps prepSteps spSteps) = [] from
      List.filterMap_eq_nil_iff.mpr fun w _ => by rw [hB w]; rfl]
    rfl

/-- C9 witness: an empty step list prunes every candidate, and an
everywhere-failing backtest yields the explicit no-result signal. -/
theorem optimize_weights_first_strict_max_witness :
    optimizeWeightsWith [] tmSteps ssSteps pySteps prepSteps spSteps
        (fun _ => none) = none
    ∧ optimize_weights (fun _ => none) = none := by
  constructor
  · exact (optimize_weights_first_strict_max (fun _ => none)).2.1
      [] tmSteps ssSteps pySteps prepSteps spSteps (fun _ => none) rfl
  · exact (optimize_weights_first_strict_max (fun _ => none)).2.2 fun w => rfl

/-- C10: a result dated exactly on the race date (zero days before it)
contributes to neither the recent-form nor the momentum signal. -/
theorem race_day_result_ignored (race_date : PDate)
    (l1 l2 : List ResultRecord) (r : ResultRecord) (d0 : PDate)
    (hd : r.date = some d0) (h0 : daysBetween race_date d0 = 0) :
    score_recent_form (l1 ++ r :: l2) race_date
        = score_recent_form (l1 ++ l2) race_date
    ∧ score_momentum (l1 ++ r :: l2) race_date
        = score_momentum (l1 ++ l2) race_date := by
  have hds : ∀ e : PDate, r.date = some e → daysBetween race_date e = 0 := by
    intro e he
    rw [hd] at he
    cases he
    exact h0
  constructor
  · unfold score_recent_form
    rw [windowResults_skip l1 l2 r race_date 90 fun e he => by
      rw [hds e he]
      omega]
  · unfold score_momentum
    rw [momentumBucket_skip l1 l2 r race_date 0 30 (Or.inl fun e he => le_of_eq (hds e he)),
      momentumBucket_skip l1 l2 r race_date 30 60 (Or.inl fun e he => le_of_eq (hds e he))]

/-- C10 witness: a race-day win is ignored at a concrete input. -/
theorem race_day_result_ignored_witness :
    score_recent_form
        [{ date := some ⟨2025, 4, 13⟩, rank := .rint 1, race_class := "1.UWT" },
         { date := some ⟨2025, 3, 8⟩, rank := .rint 2, race_class := "1.UWT" }]
        ⟨2025, 4, 13⟩
      = score_recent_form
        [{ date := some ⟨2025, 3, 8⟩, rank := .rint 2, race_class := "1.UWT" }]
        ⟨2025, 4, 13⟩
    ∧ score_momentum
        [{ date := some ⟨2025, 4, 13⟩, rank := .rint 1, race_class := "1.UWT" },
         { date := some ⟨2025, 3, 8⟩, rank := .rint 2, race_class := "1.UWT" }]
        ⟨2025, 4, 13⟩
      = score_momentum
        [{ date := some ⟨2025, 3, 8⟩, rank := .rint 2, race_class := "1.UWT" }]
        ⟨2025, 4, 13⟩ :=
  race_day_result_ignored ⟨2025, 4, 13⟩ []
    [{ date := some ⟨2025, 3, 8⟩, rank := .rint 2, race_class := "1.UWT" }]
    { date := some ⟨2025, 4, 13⟩, rank := .rint 1, race_class := "1.UWT" }
    ⟨2025, 4, 13⟩ rfl (by decide)

/-- C2 witness: two riders with identical data receive equal scores and
keep their startlist order in the ranked output. -/
theorem predict_equal_scores_keep_input_order_witness :
    ∃ i j : Nat, i < j
      ∧ (predict_from_data unitKernel [] "race/x" 2025 260 ⟨2025, 4, 13⟩
          [⟨"rider/a", "A"⟩, ⟨"rider/b", "B"⟩]
          [("rider/a", {}), ("rider/b", {})])[i]?
        = some
          { rider_name := "A", rider_url := "rider/a",
            score := pyRound 1 (predScore []
              (compute_features unitKernel {} "race/x" (resolvedTerrain "race/x")
                260 ⟨2025, 4, 13⟩ 2025) * 100),
            features := (compute_features unitKernel {} "race/x"
              (resolvedTerrain "race/x") 260 ⟨2025, 4, 13⟩ 2025).mapValues (pyRound 3),
            rank := i + 1 }
      ∧ (predict_from_data unitKernel [] "race/x" 2025 260 ⟨2025, 4, 13⟩
          [⟨"rider/a", "A"⟩, ⟨"rider/b", "B"⟩]
          [("rider/a", {}), ("rider/b", {})])[j]?
        = some
          { rider_name := "B", rider_url := "rider/b",
            score := pyRound 1 (predScore []
              (compute_features unitKernel {} "race/x" (resolvedTerrain "race/x")
                260 ⟨2025, 4, 13⟩ 2025) * 100),
            features := (compute_features unitKernel {} "race/x"
              (resolvedTerrain "race/x") 260 ⟨2025, 4, 13⟩ 2025).mapValues (pyRound 3),
            rank := j + 1 } :=
  predict_equal_scores_keep_input_order unitKernel [] "race/x" 2025 260
    ⟨2025, 4, 13⟩ [⟨"rider/a", "A"⟩, ⟨"rider/b", "B"⟩]
    [("rider/a", {}), ("rider/b", {})]
    { rider_name := "A", rider_url := "rider/a",
      score := pyRound 1 (predScore []
        (compute_features unitKernel {} "race/x" (resolvedTerrain "race/x")
          260 ⟨2025, 4, 13⟩ 2025) * 100),
      features := (compute_features unitKernel {} "race/x"
        (resolvedTerrain "race/x") 260 ⟨2025, 4, 13⟩ 2025).mapValues (pyRound 3),
      rank := 0 }
    { rider_name := "B", rider_url := "rider/b",
      score := pyRound 1 (predScore []
        (compute_features unitKernel {} "race/x" (resolvedTerrain "race/x")
          260 ⟨2025, 4, 13⟩ 2025) * 100),
      features := (compute_features unitKernel {} "race/x"
        (resolvedTerrain "race/x") 260 ⟨2025, 4, 13⟩ 2025).mapValues (pyRound 3),
      rank := 0 }
    (by with_unfolding_all exact List.Sublist.refl _)
    rfl
